import Mathlib

/-!
Verification development for the object-oriented metric visitors of
`radon/visitors.py`: the cyclomatic-complexity visitor (`ComplexityVisitor`),
the Halstead operator/operand visitor (`HalsteadVisitor`), the lack-of-cohesion
visitor (`LCOMVisitor` with its `MethodFieldVisitor` helper) and the two-phase
coupling-between-objects analysis (`AllClassesVisitor`, `CBOVisitor`,
`analyze_cbo`, `analyze_lcom`).

The Python abstract syntax tree is shallowly embedded as a family of mutually
inductive types covering the node kinds these visitors dispatch on (a
representative fragment of Python: names, constants, attributes, calls,
subscripts, boolean/binary/unary operators, comparison chains, conditional
expressions, expression/assignment statements, annotated and augmented
assignments, return, pass, imports, assert, if, while, match and
(async) function and class definitions).  Each visitor becomes a structurally
recursive state-passing function whose arms are translated one-to-one from the
corresponding `visit_*` methods and from `ast.NodeVisitor.generic_visit`
fall-through (an unhandled node contributes nothing and its children are
visited in field order).  Python `set`s are modelled as duplicate-free lists
built by insert-if-absent, Python `dict`s as association lists with
update-or-append semantics (insertion order preserved), Python integers as
`Int` (so `len(values) - 1` may be negative, exactly as in Python), and
`str.split(".")` as an explicit recursion over the string's character list.
Source line/column positions, which no analysed property mentions, are not
modelled.
-/

namespace Radon

/-! ### Python container primitives -/

/-- `set.add` on a set modelled as a duplicate-free list: append the element
unless it is already present. -/
def insertUniq {α : Type} [DecidableEq α] (l : List α) (a : α) : List α :=
  if a ∈ l then l else l ++ [a]

/-- `set.update`: fold `insertUniq` over the second list. -/
def setUnion {α : Type} [DecidableEq α] (l m : List α) : List α :=
  m.foldl insertUniq l

/-- Build a Python set from a list of elements (`set([...])`). -/
def listToSet {α : Type} [DecidableEq α] (l : List α) : List α :=
  setUnion [] l

/-- Dictionary lookup (`d.get(k)`) on a dict modelled as an association list. -/
def assocGet {α : Type} (k : String) : List (String × α) → Option α
  | [] => none
  | (k2, v) :: rest => if k2 = k then some v else assocGet k rest

/-- Dictionary assignment `d[k] = v`: update in place if the key exists
(keeping its insertion position), otherwise append. -/
def assocSet {α : Type} (k : String) (v : α) : List (String × α) → List (String × α)
  | [] => [(k, v)]
  | (k2, v2) :: rest =>
    if k2 = k then (k2, v) :: rest else (k2, v2) :: assocSet k v rest

/-- Helper for `splitOnDot`: scan the character list, cutting at `'.'`. -/
def splitDotsAux : List Char → List Char → List String
  | [], acc => [String.mk acc.reverse]
  | c :: rest, acc =>
    if c = '.' then String.mk acc.reverse :: splitDotsAux rest []
    else splitDotsAux rest (c :: acc)

/-- Python's `s.split(".")`: every dot is a cut point and empty pieces are
kept, so `"".split(".") == [""]` and `"A.".split(".") == ["A", ""]`. -/
def splitOnDot (s : String) : List String := splitDotsAux s.data []

theorem mem_insertUniq {α : Type} [DecidableEq α] (l : List α) (a x : α) :
    x ∈ insertUniq l a ↔ x ∈ l ∨ x = a := by
  unfold insertUniq
  by_cases h : a ∈ l
  · simp only [if_pos h]
    constructor
    · exact fun hx => Or.inl hx
    · rintro (hx | rfl)
      · exact hx
      · exact h
  · simp [if_neg h]

theorem mem_setUnion {α : Type} [DecidableEq α] (l m : List α) (x : α) :
    x ∈ setUnion l m ↔ x ∈ l ∨ x ∈ m := by
  induction m generalizing l with
  | nil => simp [setUnion]
  | cons b m ih =>
    show x ∈ setUnion (insertUniq l b) m ↔ _
    rw [ih, mem_insertUniq]
    simp [or_assoc, or_comm, or_left_comm]

theorem setUnion_nil {α : Type} [DecidableEq α] (l : List α) :
    setUnion l [] = l := rfl

theorem insertUniq_setUnion {α : Type} [DecidableEq α] (a b : List α) (x : α) :
    insertUniq (setUnion a b) x = setUnion a (insertUniq b x) := by
  unfold insertUniq
  by_cases hb : x ∈ b
  · have hab : x ∈ setUnion a b := (mem_setUnion a b x).2 (Or.inr hb)
    rw [if_pos hab, if_pos hb]
  · rw [if_neg hb]
    show _ = setUnion a (b ++ [x])
    unfold setUnion
    rw [List.foldl_append]
    rfl

theorem setUnion_assoc {α : Type} [DecidableEq α] (a b c : List α) :
    setUnion (setUnion a b) c = setUnion a (setUnion b c) := by
  induction c generalizing b with
  | nil => rfl
  | cons x c ih =>
    show setUnion (insertUniq (setUnion a b) x) c = setUnion a (setUnion (insertUniq b x) c)
    rw [insertUniq_setUnion, ih]

theorem setUnion_listToSet {α : Type} [DecidableEq α] (a c : List α) :
    setUnion a (setUnion [] c) = setUnion a c := by
  rw [← setUnion_assoc]; rfl

theorem assocGet_assocSet {α : Type} (k k2 : String) (v : α) (l : List (String × α)) :
    assocGet k2 (assocSet k v l) = if k = k2 then some v else assocGet k2 l := by
  induction l with
  | nil =>
    by_cases h : k = k2 <;> simp [assocSet, assocGet, h]
  | cons p rest ih =>
    obtain ⟨k3, v3⟩ := p
    by_cases h3 : k3 = k
    · subst h3
      by_cases h : k3 = k2 <;> simp [assocSet, assocGet, h, ih]
    · by_cases h : k3 = k2
      · subst h
        have hkk : ¬ k = k3 := fun hh => h3 hh.symm
        simp [assocSet, assocGet, h3, hkk]
      · simp [assocSet, assocGet, h3, h, ih]

/-! ### The embedded abstract syntax tree -/

/-- Python `match` patterns, as far as `ComplexityVisitor` inspects them: the
visitor's wildcard test is `getattr(case.pattern, "pattern", False) is None`,
which is true exactly for a `MatchAs` node whose `pattern` field is `None`
(that is, the wildcard `case _:` when `name` is also `None`, and a bare
capture `case x:` when `name` is set).  `matchAsNone nm` is a `MatchAs` with
`pattern=None`, `matchAsSome p nm` a `MatchAs` with a sub-pattern, and
`matchValue` a literal value pattern (which has no `pattern` field). -/
inductive Pattern where
  | matchValue (value : Int)
  | matchAsNone (name : Option String)
  | matchAsSome (pattern : Pattern) (name : Option String)
deriving DecidableEq

mutual

inductive Expr where
  | name (id : String)
  | constant (value : Int)
  | attribute (value : Expr) (attr : String)
  | call (func : Expr) (args : ExprList)
  | subscript (value : Expr) (slice : Expr)
  | boolOp (op : String) (values : ExprList)
  | binOp (left : Expr) (op : String) (right : Expr)
  | unaryOp (op : String) (operand : Expr)
  | compare (left : Expr) (ops : List String) (comparators : ExprList)
  | ifExp (test : Expr) (body : Expr) (orelse : Expr)

inductive ExprList where
  | nil
  | cons (head : Expr) (tail : ExprList)

inductive OptExpr where
  | none
  | some (e : Expr)

inductive Arg where
  | mk (name : String) (ann : OptExpr)

inductive ArgList where
  | nil
  | cons (head : Arg) (tail : ArgList)

inductive Stmt where
  | exprStmt (value : Expr)
  | assign (targets : ExprList) (value : Expr)
  | annAssign (target : Expr) (ann : Expr) (value : OptExpr)
  | augAssign (target : Expr) (op : String) (value : Expr)
  | ret (value : OptExpr)
  | pass
  | importS (names : List (String × Option String))
  | importFrom (module : Option String) (names : List (String × Option String))
  | assertS (test : Expr)
  | ifS (test : Expr) (body : StmtList) (orelse : StmtList)
  | whileS (test : Expr) (body : StmtList) (orelse : StmtList)
  | matchS (subject : Expr) (cases : MatchCaseList)
  | functionDef (name : String) (args : ArgList) (returns : OptExpr) (body : StmtList)
  | asyncFunctionDef (name : String) (args : ArgList) (returns : OptExpr) (body : StmtList)
  | classDef (name : String) (bases : ExprList) (body : StmtList)

inductive StmtList where
  | nil
  | cons (head : Stmt) (tail : StmtList)

inductive MatchCase where
  | mk (pattern : Pattern) (body : StmtList)

inductive MatchCaseList where
  | nil
  | cons (head : MatchCase) (tail : MatchCaseList)

end

namespace ExprList

def length : ExprList → Nat
  | .nil => 0
  | .cons _ rest => 1 + length rest

def toList : ExprList → List Expr
  | .nil => []
  | .cons e rest => e :: toList rest

end ExprList

namespace StmtList

def isNil : StmtList → Bool
  | .nil => true
  | .cons _ _ => false

def append : StmtList → StmtList → StmtList
  | .nil, l => l
  | .cons s rest, l => .cons s (append rest l)

end StmtList

namespace MatchCaseList

def length : MatchCaseList → Nat
  | .nil => 0
  | .cons _ rest => 1 + length rest

end MatchCaseList

/-! ### ComplexityVisitor

`ComplexityVisitor` keeps a running `complexity` counter (a Python integer,
starting at 1 when `off=True`, at 0 otherwise), a list of `Function` records
and a list of `Class` records.  `generic_visit` adds the decision-point
increments keyed on the node's class name and recurses into all children;
`visit_Assert` adds `not self.no_assert` and does NOT recurse;
`visit_FunctionDef` and `visit_ClassDef` spawn a fresh sub-visitor per body
statement and do not touch the parent's counter.  Source positions (`lineno`,
`col_offset`, `endline`, `max_line`) are not modelled; no analysed property
mentions them. -/

/-- The `Function` record: name, `is_method` flag, owning class name, nested
closures and the complexity score (positions omitted). -/
inductive CFunction where
  | mk (name : String) (isMethod : Bool) (classname : Option String)
      (closures : List CFunction) (complexity : Int)

def CFunction.complexity : CFunction → Int
  | .mk _ _ _ _ c => c

/-- The `Class` record: name, methods, inner classes and `real_complexity`
(positions omitted). -/
inductive CClass where
  | mk (name : String) (methods : List CFunction) (innerClasses : List CClass)
      (realComplexity : Int)

def CClass.methods : CClass → List CFunction
  | .mk _ ms _ _ => ms

def CClass.realComplexity : CClass → Int
  | .mk _ _ _ rc => rc

/-- `Class.complexity`:
`real_complexity` if there are no methods, else
`int(real_complexity / float(len(methods))) + (len(methods) > 1)`.
Python `int()` truncates the quotient toward zero, which is `Int.tdiv`. -/
def CClass.complexity (c : CClass) : Int :=
  if c.methods.isEmpty then c.realComplexity
  else Int.tdiv c.realComplexity (c.methods.length : Int) +
    (if 1 < c.methods.length then 1 else 0)

/-- `sum(map(GET_COMPLEXITY, functions))`. -/
def sumComplexity : List CFunction → Int
  | [] => 0
  | f :: rest => f.complexity + sumComplexity rest

/-- The `functions_complexity` property of a sub-visitor:
`sum(map(GET_COMPLEXITY, self.functions)) - len(self.functions)`. -/
def functionsComplexity (fs : List CFunction) : Int :=
  sumComplexity fs - (fs.length : Int)

/-- Mutable state of one `ComplexityVisitor` (the `off`, `to_method`,
`classname` and `no_assert` constructor parameters are threaded separately
as function arguments). -/
structure CVState where
  complexity : Int
  functions : List CFunction
  classes : List CClass

/-- A fresh sub-visitor created with `off=False`: counter 0, no records. -/
def cvZero : CVState := ⟨0, [], []⟩

/-- The wildcard test in `visit_Match`:
`getattr(case.pattern, "pattern", False) is None`, true exactly for a
`MatchAs` pattern whose sub-pattern is `None`. -/
def patternAttrNone : Pattern → Bool
  | .matchAsNone _ => true
  | _ => false

/-- `contain_underscore`: some case's pattern passes `patternAttrNone`. -/
def containUnderscore : MatchCaseList → Bool
  | .nil => false
  | .cons (.mk p _) rest => patternAttrNone p || containUnderscore rest

mutual

/-- One `ComplexityVisitor.visit` step on a statement.  `na` is `no_assert`,
`tm` is `to_method`, `cn` is `classname`. -/
def cvStmt (na tm : Bool) (cn : Option String) : Stmt → CVState → CVState
  | .exprStmt e, st => cvExpr na tm cn e st
  | .assign ts v, st => cvExpr na tm cn v (cvExprList na tm cn ts st)
  | .annAssign t a v, st =>
    cvOptExpr na tm cn v (cvExpr na tm cn a (cvExpr na tm cn t st))
  | .augAssign t _ v, st => cvExpr na tm cn v (cvExpr na tm cn t st)
  | .ret v, st => cvOptExpr na tm cn v st
  | .pass, st => st
  | .importS _, st => st
  | .importFrom _ _, st => st
  | .assertS _, st =>
    { st with complexity := st.complexity + (if na then 0 else 1) }
  | .ifS t b e, st =>
    let st1 := { st with complexity := st.complexity + 1 }
    cvStmtList na tm cn e (cvStmtList na tm cn b (cvExpr na tm cn t st1))
  | .whileS t b e, st =>
    let st1 := { st with
      complexity := st.complexity + (if StmtList.isNil e then 0 else 1) + 1 }
    cvStmtList na tm cn e (cvStmtList na tm cn b (cvExpr na tm cn t st1))
  | .matchS subj cases, st =>
    let w : Int := if containUnderscore cases then 1 else 0
    let st1 := { st with
      complexity := st.complexity + max 0 ((MatchCaseList.length cases : Int) - w) }
    cvCases na tm cn cases (cvExpr na tm cn subj st1)
  | .functionDef nm _ _ body, st =>
    let p := cvFunctionBody na body
    { st with functions := st.functions ++ [CFunction.mk nm tm cn p.1 p.2] }
  | .asyncFunctionDef nm _ _ body, st =>
    let p := cvFunctionBody na body
    { st with functions := st.functions ++ [CFunction.mk nm tm cn p.1 p.2] }
  | .classDef nm _ body, st =>
    let p := cvClassBody na nm body
    { st with classes := st.classes ++ [CClass.mk nm p.1 p.2.1 p.2.2] }

/-- `visit_FunctionDef` body loop: spawn a fresh visitor
(`off=False`, `to_method=False`, `classname=None`) per body statement,
collect its functions as closures and add its complexity to
`body_complexity` (baseline 1). -/
def cvFunctionBody (na : Bool) : StmtList → (List CFunction × Int)
  | .nil => ([], 1)
  | .cons s rest =>
    let sub := cvStmt na false Option.none s cvZero
    let p := cvFunctionBody na rest
    (sub.functions ++ p.1, sub.complexity + p.2)

/-- `visit_ClassDef` body loop: spawn a fresh visitor
(`to_method=True`, `classname=nm`, `off=False`) per body statement, collect
methods and inner classes, and add
`complexity + functions_complexity + len(functions)` of every sub-visitor to
`body_complexity` (baseline 1). -/
def cvClassBody (na : Bool) (nm : String) :
    StmtList → (List CFunction × List CClass × Int)
  | .nil => ([], [], 1)
  | .cons s rest =>
    let sub := cvStmt na true (Option.some nm) s cvZero
    let p := cvClassBody na nm rest
    (sub.functions ++ p.1, sub.classes ++ p.2.1,
      (sub.complexity + functionsComplexity sub.functions +
        (sub.functions.length : Int)) + p.2.2)

/-- `generic_visit` on an expression node. -/
def cvExpr (na tm : Bool) (cn : Option String) : Expr → CVState → CVState
  | .name _, st => st
  | .constant _, st => st
  | .attribute v _, st => cvExpr na tm cn v st
  | .call f args, st => cvExprList na tm cn args (cvExpr na tm cn f st)
  | .subscript v s, st => cvExpr na tm cn s (cvExpr na tm cn v st)
  | .boolOp _ vs, st =>
    let st1 := { st with
      complexity := st.complexity + ((ExprList.length vs : Int) - 1) }
    cvExprList na tm cn vs st1
  | .binOp l _ r, st => cvExpr na tm cn r (cvExpr na tm cn l st)
  | .unaryOp _ e, st => cvExpr na tm cn e st
  | .compare l _ cs, st => cvExprList na tm cn cs (cvExpr na tm cn l st)
  | .ifExp t b e, st =>
    let st1 := { st with complexity := st.complexity + 1 }
    cvExpr na tm cn e (cvExpr na tm cn b (cvExpr na tm cn t st1))

def cvExprList (na tm : Bool) (cn : Option String) : ExprList → CVState → CVState
  | .nil, st => st
  | .cons e rest, st => cvExprList na tm cn rest (cvExpr na tm cn e st)

def cvOptExpr (na tm : Bool) (cn : Option String) : OptExpr → CVState → CVState
  | .none, st => st
  | .some e, st => cvExpr na tm cn e st

def cvStmtList (na tm : Bool) (cn : Option String) : StmtList → CVState → CVState
  | .nil, st => st
  | .cons s rest, st => cvStmtList na tm cn rest (cvStmt na tm cn s st)

/-- Generic descent into `match` cases (patterns carry no decision points;
case bodies are visited). -/
def cvCases (na tm : Bool) (cn : Option String) : MatchCaseList → CVState → CVState
  | .nil, st => st
  | .cons (.mk _ b) rest, st => cvCases na tm cn rest (cvStmtList na tm cn b st)

end

/-- `ComplexityVisitor.from_ast` on a module with the default parameters
(`off=True`, so the counter starts at 1). -/
def cvRun (na : Bool) (prog : StmtList) : CVState :=
  cvStmtList na false Option.none prog ⟨1, [], []⟩

/-- Complexity contributed by visiting one statement (counter delta,
evaluated from a fresh `off=False` visitor). -/
def cDeltaS (na : Bool) (s : Stmt) : Int :=
  (cvStmt na false Option.none s cvZero).complexity

/-- Complexity contributed by visiting one expression. -/
def cDeltaE (na : Bool) (e : Expr) : Int :=
  (cvExpr na false Option.none e cvZero).complexity

/-- Complexity contributed by visiting a list of expressions. -/
def cDeltaEL (na : Bool) (es : ExprList) : Int :=
  (cvExprList na false Option.none es cvZero).complexity

/-- Complexity contributed by visiting an optional expression. -/
def cDeltaOE (na : Bool) (oe : OptExpr) : Int :=
  (cvOptExpr na false Option.none oe cvZero).complexity

/-- Complexity contributed by visiting a list of statements. -/
def cDeltaSL (na : Bool) (ss : StmtList) : Int :=
  (cvStmtList na false Option.none ss cvZero).complexity

/-- Complexity contributed by visiting a list of match cases. -/
def cDeltaMC (na : Bool) (cs : MatchCaseList) : Int :=
  (cvCases na false Option.none cs cvZero).complexity

/-! Additivity of the complexity counter: visiting a node adds a delta that
depends only on the node and `no_assert` (not on the starting counter, the
collected records, `to_method` or `classname`).  The delta is computed by the
`cw*` family below, and the `cv*_complexity` theorems prove that the visitor
realises it.  This is what makes "a construct contributes exactly k" well
defined independently of nesting. -/

mutual

/-- Counter delta contributed by visiting a statement. -/
def cwS (na : Bool) : Stmt → Int
  | .exprStmt e => cwE na e
  | .assign ts v => cwEL na ts + cwE na v
  | .annAssign t a v => cwE na t + cwE na a + cwOE na v
  | .augAssign t _ v => cwE na t + cwE na v
  | .ret v => cwOE na v
  | .pass => 0
  | .importS _ => 0
  | .importFrom _ _ => 0
  | .assertS _ => if na then 0 else 1
  | .ifS t b e => 1 + cwE na t + cwSL na b + cwSL na e
  | .whileS t b e =>
    (if StmtList.isNil e then 0 else 1) + 1 + cwE na t + cwSL na b + cwSL na e
  | .matchS subj cases =>
    max 0 ((MatchCaseList.length cases : Int) -
      (if containUnderscore cases then 1 else 0)) + cwE na subj + cwMC na cases
  | .functionDef _ _ _ _ => 0
  | .asyncFunctionDef _ _ _ _ => 0
  | .classDef _ _ _ => 0

/-- Counter delta contributed by visiting an expression. -/
def cwE (na : Bool) : Expr → Int
  | .name _ => 0
  | .constant _ => 0
  | .attribute v _ => cwE na v
  | .call f args => cwE na f + cwEL na args
  | .subscript v s => cwE na v + cwE na s
  | .boolOp _ vs => ((ExprList.length vs : Int) - 1) + cwEL na vs
  | .binOp l _ r => cwE na l + cwE na r
  | .unaryOp _ e => cwE na e
  | .compare l _ cs => cwE na l + cwEL na cs
  | .ifExp t b e => 1 + cwE na t + cwE na b + cwE na e

def cwEL (na : Bool) : ExprList → Int
  | .nil => 0
  | .cons e rest => cwE na e + cwEL na rest

def cwOE (na : Bool) : OptExpr → Int
  | .none => 0
  | .some e => cwE na e

def cwSL (na : Bool) : StmtList → Int
  | .nil => 0
  | .cons s rest => cwS na s + cwSL na rest

def cwMC (na : Bool) : MatchCaseList → Int
  | .nil => 0
  | .cons (.mk _ b) rest => cwSL na b + cwMC na rest

end

mutual

theorem cvStmt_complexity (na tm : Bool) (cn : Option String) :
    ∀ (s : Stmt) (st : CVState),
    (cvStmt na tm cn s st).complexity = st.complexity + cwS na s
  | .exprStmt e, st => by
    simp only [cvStmt, cwS]; rw [cvExpr_complexity]
  | .assign ts v, st => by
    simp only [cvStmt, cwS]
    rw [cvExpr_complexity, cvExprList_complexity]; omega
  | .annAssign t a v, st => by
    simp only [cvStmt, cwS]
    rw [cvOptExpr_complexity, cvExpr_complexity, cvExpr_complexity]; omega
  | .augAssign t op v, st => by
    simp only [cvStmt, cwS]
    rw [cvExpr_complexity, cvExpr_complexity]; omega
  | .ret v, st => by
    simp only [cvStmt, cwS]; rw [cvOptExpr_complexity]
  | .pass, st => by simp [cvStmt, cwS]
  | .importS ns, st => by simp [cvStmt, cwS]
  | .importFrom m ns, st => by simp [cvStmt, cwS]
  | .assertS e, st => by simp [cvStmt, cwS]
  | .ifS t b e, st => by
    simp only [cvStmt, cwS]
    rw [cvStmtList_complexity, cvStmtList_complexity, cvExpr_complexity]
    simp only [CVState.complexity]; omega
  | .whileS t b e, st => by
    simp only [cvStmt, cwS]
    rw [cvStmtList_complexity, cvStmtList_complexity, cvExpr_complexity]
    simp only [CVState.complexity]; omega
  | .matchS subj cases, st => by
    simp only [cvStmt, cwS]
    rw [cvCases_complexity, cvExpr_complexity]
    simp only [CVState.complexity]; omega
  | .functionDef nm a r body, st => by simp [cvStmt, cwS]
  | .asyncFunctionDef nm a r body, st => by simp [cvStmt, cwS]
  | .classDef nm bs body, st => by simp [cvStmt, cwS]

theorem cvExpr_complexity (na tm : Bool) (cn : Option String) :
    ∀ (e : Expr) (st : CVState),
    (cvExpr na tm cn e st).complexity = st.complexity + cwE na e
  | .name s, st => by simp [cvExpr, cwE]
  | .constant n, st => by simp [cvExpr, cwE]
  | .attribute v a, st => by
    simp only [cvExpr, cwE]; rw [cvExpr_complexity]
  | .call f args, st => by
    simp only [cvExpr, cwE]
    rw [cvExprList_complexity, cvExpr_complexity]; omega
  | .subscript v s, st => by
    simp only [cvExpr, cwE]
    rw [cvExpr_complexity, cvExpr_complexity]; omega
  | .boolOp op vs, st => by
    simp only [cvExpr, cwE]
    rw [cvExprList_complexity]
    simp only [CVState.complexity]; omega
  | .binOp l op r, st => by
    simp only [cvExpr, cwE]
    rw [cvExpr_complexity, cvExpr_complexity]; omega
  | .unaryOp op e, st => by
    simp only [cvExpr, cwE]; rw [cvExpr_complexity]
  | .compare l ops cs, st => by
    simp only [cvExpr, cwE]
    rw [cvExprList_complexity, cvExpr_complexity]; omega
  | .ifExp t b e, st => by
    simp only [cvExpr, cwE]
    rw [cvExpr_complexity, cvExpr_complexity, cvExpr_complexity]
    simp only [CVState.complexity]; omega

theorem cvExprList_complexity (na tm : Bool) (cn : Option String) :
    ∀ (es : ExprList) (st : CVState),
    (cvExprList na tm cn es st).complexity = st.complexity + cwEL na es
  | .nil, st => by simp [cvExprList, cwEL]
  | .cons e rest, st => by
    simp only [cvExprList, cwEL]
    rw [cvExprList_complexity, cvExpr_complexity]; omega

theorem cvOptExpr_complexity (na tm : Bool) (cn : Option String) :
    ∀ (oe : OptExpr) (st : CVState),
    (cvOptExpr na tm cn oe st).complexity = st.complexity + cwOE na oe
  | .none, st => by simp [cvOptExpr, cwOE]
  | .some e, st => by
    simp only [cvOptExpr, cwOE]; rw [cvExpr_complexity]

theorem cvStmtList_complexity (na tm : Bool) (cn : Option String) :
    ∀ (ss : StmtList) (st : CVState),
    (cvStmtList na tm cn ss st).complexity = st.complexity + cwSL na ss
  | .nil, st => by simp [cvStmtList, cwSL]
  | .cons s rest, st => by
    simp only [cvStmtList, cwSL]
    rw [cvStmtList_complexity, cvStmt_complexity]; omega

theorem cvCases_complexity (na tm : Bool) (cn : Option String) :
    ∀ (cs : MatchCaseList) (st : CVState),
    (cvCases na tm cn cs st).complexity = st.complexity + cwMC na cs
  | .nil, st => by simp [cvCases, cwMC]
  | .cons (.mk p b) rest, st => by
    simp only [cvCases, cwMC]
    rw [cvCases_complexity, cvStmtList_complexity]; omega

end

/-! ### Claims C3, C6, C7 (ComplexityVisitor traversal) and C4 (Class record) -/

/-- The three-operand boolean combination `a and b and c`. -/
def boolOp3 : Expr :=
  .boolOp "And" (.cons (.name "a") (.cons (.name "b") (.cons (.name "c") .nil)))

/-- Claim C3, counterexample.  The claim says every boolean combination with
N operands adds exactly N−1 to the complexity counter regardless of where it
is nested, including inside assertion statements.  But `visit_Assert` only
adds `not no_assert` and never recurses into the assert's test expression, so
visiting `assert a and b and c` produces exactly the same visitor state as
visiting `assert a`: the three-operand boolean combination contributes 0, not
N−1 = 2. -/
theorem radon_c3_counterexample :
    cvStmt false false Option.none (.assertS boolOp3) cvZero =
      cvStmt false false Option.none (.assertS (.name "a")) cvZero ∧
    (cvStmt false false Option.none (.assertS boolOp3) cvZero).complexity = 1 ∧
    ((3 : Int) - 1) ≠ 0 :=
  ⟨rfl, rfl, by decide⟩

/-- Claim C3, amended.  A boolean combination with N operands adds exactly
N−1 to the complexity counter (plus its operands' own contributions) wherever
the generic traversal visits it; but assertion statements are handled by
`visit_Assert`, which adds exactly 1 (0 when `no_assert` is set) without
traversing the assert's test expression, so a boolean combination inside an
assertion statement contributes nothing. -/
theorem radon_c3_amended :
    (∀ (na tm : Bool) (cn : Option String) (op : String) (vs : ExprList)
      (st : CVState),
      (cvExpr na tm cn (.boolOp op vs) st).complexity =
        st.complexity + ((ExprList.length vs : Int) - 1) + cwEL na vs) ∧
    (∀ (tm : Bool) (cn : Option String) (e : Expr) (st : CVState),
      cvStmt false tm cn (.assertS e) st =
        { st with complexity := st.complexity + 1 }) ∧
    (∀ (tm : Bool) (cn : Option String) (e : Expr) (st : CVState),
      cvStmt true tm cn (.assertS e) st = st) := by
  refine ⟨fun na tm cn op vs st => ?_, fun tm cn e st => ?_, fun tm cn e st => ?_⟩
  · rw [cvExpr_complexity]; simp only [cwE]; omega
  · simp [cvStmt]
  · simp [cvStmt]

/-- Two match cases, `case 1:` and the bare capture `case x:`; neither is the
wildcard `case _:`. -/
def c6cases : MatchCaseList :=
  .cons (.mk (.matchValue 1) (.cons .pass .nil))
    (.cons (.mk (.matchAsNone (Option.some "x")) (.cons .pass .nil)) .nil)

/-- Modelled from the spec's words: "`has_wildcard_case` is 1 if any case's
pattern is the universal/'else' wildcard" — the wildcard pattern `case _:`,
i.e. a `MatchAs` node with neither sub-pattern nor capture name. -/
def specHasWildcardCase : MatchCaseList → Bool
  | .nil => false
  | .cons (.mk p _) rest =>
    decide (p = Pattern.matchAsNone Option.none) || specHasWildcardCase rest

/-- Claim C6, counterexample.  The claim says a pattern-match construct adds
`max(0, number_of_cases − has_wildcard_case)` where `has_wildcard_case` is 1
only when some case's pattern is the universal wildcard.  The code instead
tests `getattr(case.pattern, "pattern", False) is None`, which is also true
for a bare capture pattern `case x:` (a `MatchAs` with `pattern=None` but a
name).  For `match v` with cases `case 1:` and `case x:` there is no wildcard
case, so the claim demands an increment of max(0, 2−0) = 2, but the visitor
adds only 1. -/
theorem radon_c6_counterexample :
    (cvStmt false false Option.none (.matchS (.name "v") c6cases) cvZero).complexity = 1 ∧
    specHasWildcardCase c6cases = false ∧
    MatchCaseList.length c6cases = 2 ∧
    max 0 ((2 : Int) - 0) ≠ 1 :=
  ⟨rfl, rfl, rfl, by decide⟩

/-- Claim C6, amended.  A pattern-match construct adds exactly
`max(0, number_of_cases − contain_underscore)` to the complexity counter
(plus the contributions of its subject and case bodies), where
`contain_underscore` is 1 if any case's pattern is a `MatchAs` pattern whose
sub-pattern is `None` — that is, the universal wildcard `case _:` or a bare
capture `case x:` — and 0 otherwise. -/
theorem radon_c6_amended (na tm : Bool) (cn : Option String) (subj : Expr)
    (cases : MatchCaseList) (st : CVState) :
    (cvStmt na tm cn (.matchS subj cases) st).complexity =
      st.complexity +
        max 0 ((MatchCaseList.length cases : Int) -
          (if containUnderscore cases then 1 else 0)) +
        cwE na subj + cwMC na cases := by
  rw [cvStmt_complexity]; simp only [cwS]; omega

/-- Claim C7.  Every statement or expression kind that matches none of
`ComplexityVisitor`'s decision-point rules (expression statements, plain,
annotated and augmented assignments, return, pass, imports, names, constants,
attributes, calls, subscripts, binary and unary operators and comparison
chains) leaves the complexity counter unchanged except for the recursive
descent into its children, whose contributions are the `cw*` deltas; kinds
with no children leave the entire visitor state untouched.  The traversal is
a total function on the embedded syntax, so an unhandled kind can never make
it raise. -/
theorem radon_c7 (na tm : Bool) (cn : Option String) (st : CVState) :
    (∀ e, (cvStmt na tm cn (.exprStmt e) st).complexity =
      st.complexity + cwE na e) ∧
    (∀ ts v, (cvStmt na tm cn (.assign ts v) st).complexity =
      st.complexity + cwEL na ts + cwE na v) ∧
    (∀ t a v, (cvStmt na tm cn (.annAssign t a v) st).complexity =
      st.complexity + cwE na t + cwE na a + cwOE na v) ∧
    (∀ t op v, (cvStmt na tm cn (.augAssign t op v) st).complexity =
      st.complexity + cwE na t + cwE na v) ∧
    (∀ v, (cvStmt na tm cn (.ret v) st).complexity =
      st.complexity + cwOE na v) ∧
    (cvStmt na tm cn .pass st = st) ∧
    (∀ ns, cvStmt na tm cn (.importS ns) st = st) ∧
    (∀ m ns, cvStmt na tm cn (.importFrom m ns) st = st) ∧
    (∀ s, cvExpr na tm cn (.name s) st = st) ∧
    (∀ n, cvExpr na tm cn (.constant n) st = st) ∧
    (∀ v a, (cvExpr na tm cn (.attribute v a) st).complexity =
      st.complexity + cwE na v) ∧
    (∀ f args, (cvExpr na tm cn (.call f args) st).complexity =
      st.complexity + cwE na f + cwEL na args) ∧
    (∀ v s, (cvExpr na tm cn (.subscript v s) st).complexity =
      st.complexity + cwE na v + cwE na s) ∧
    (∀ l op r, (cvExpr na tm cn (.binOp l op r) st).complexity =
      st.complexity + cwE na l + cwE na r) ∧
    (∀ op e, (cvExpr na tm cn (.unaryOp op e) st).complexity =
      st.complexity + cwE na e) ∧
    (∀ l ops cs, (cvExpr na tm cn (.compare l ops cs) st).complexity =
      st.complexity + cwE na l + cwEL na cs) := by
  refine ⟨fun e => ?_, fun ts v => ?_, fun t a v => ?_, fun t op v => ?_,
    fun v => ?_, rfl, fun ns => rfl, fun m ns => rfl, fun s => rfl,
    fun n => rfl, fun v a => ?_, fun f args => ?_, fun v s => ?_,
    fun l op r => ?_, fun op e => ?_, fun l ops cs => ?_⟩ <;>
    first
      | (rw [cvStmt_complexity]; simp only [cwS]; omega)
      | (rw [cvStmt_complexity]; simp only [cwS])
      | (rw [cvExpr_complexity]; simp only [cwE]; omega)
      | (rw [cvExpr_complexity]; simp only [cwE])

/-- Claim C4.  The derived `complexity` property of a `Class` record equals
`real_complexity` when the class has no methods, equals `real_complexity`
unmodified when it has exactly one method, and equals
`floor(real_complexity / method_count) + 1` (expressed with natural-number
division, which is the floor; `real_complexity` is non-negative for every
record the visitor produces, since class body complexity starts from
baseline 1) when it has more than one method. -/
theorem radon_c4 (c : CClass) :
    (c.methods = [] → c.complexity = c.realComplexity) ∧
    (c.methods.length = 1 → c.complexity = c.realComplexity) ∧
    (1 < c.methods.length → 0 ≤ c.realComplexity →
      c.complexity = ((c.realComplexity.toNat / c.methods.length : Nat) : Int) + 1) := by
  refine ⟨fun h => ?_, fun h => ?_, fun h hr => ?_⟩
  · simp [CClass.complexity, h]
  · have hne : ¬ c.methods.isEmpty = true := by
      cases cm : c.methods with
      | nil => rw [cm] at h; simp at h
      | cons x xs => simp [List.isEmpty]
    simp [CClass.complexity, hne, h, Int.tdiv_one]
  · have hne : ¬ c.methods.isEmpty = true := by
      cases cm : c.methods with
      | nil => rw [cm] at h; simp at h
      | cons x xs => simp [List.isEmpty]
    obtain ⟨m, hm⟩ : ∃ m : Nat, c.realComplexity = (m : Int) :=
      ⟨c.realComplexity.toNat, (Int.toNat_of_nonneg hr).symm⟩
    simp only [CClass.complexity, hne, if_false, if_pos h, hm, Bool.false_eq_true]
    norm_num [Int.tdiv]

/-- A concrete two-method class record with `real_complexity = 5`. -/
def c4demo : CClass :=
  CClass.mk "Demo"
    [CFunction.mk "m1" true (Option.some "Demo") [] 2,
     CFunction.mk "m2" true (Option.some "Demo") [] 3] [] 5

/-- Witness for C4: a class with two methods and `real_complexity = 5` has
derived complexity `floor(5 / 2) + 1 = 3`. -/
theorem radon_c4_witness :
    1 < c4demo.methods.length ∧ 0 ≤ c4demo.realComplexity ∧
      c4demo.complexity = 3 := by
  refine ⟨by decide, by decide, ?_⟩
  have h := (radon_c4 c4demo).2.2 (by decide) (by decide)
  rw [h]; rfl

/-! ### LCOMVisitor and MethodFieldVisitor

`MethodFieldVisitor` walks a method definition generically; `visit_Attribute`
records `node.attr` whenever the attribute's base is the literal name `self`,
then keeps descending.  `LCOMVisitor.visit_ClassDef` collects the names and
field sets of the `ast.FunctionDef` items that appear directly in the class
body (`AsyncFunctionDef` is a different node type and is skipped by the
`isinstance` test), then scores the class with `calculate_lcom`; it does not
recurse into the class body, while every other statement kind is traversed
generically (so classes nested in function bodies are scored too). -/

mutual

/-- `MethodFieldVisitor` on a statement: pure generic descent. -/
def mfStmt : Stmt → List String → List String
  | .exprStmt e, fs => mfExpr e fs
  | .assign ts v, fs => mfExpr v (mfExprList ts fs)
  | .annAssign t a v, fs => mfOptExpr v (mfExpr a (mfExpr t fs))
  | .augAssign t _ v, fs => mfExpr v (mfExpr t fs)
  | .ret v, fs => mfOptExpr v fs
  | .pass, fs => fs
  | .importS _, fs => fs
  | .importFrom _ _, fs => fs
  | .assertS t, fs => mfExpr t fs
  | .ifS t b e, fs => mfStmtList e (mfStmtList b (mfExpr t fs))
  | .whileS t b e, fs => mfStmtList e (mfStmtList b (mfExpr t fs))
  | .matchS subj cs, fs => mfCases cs (mfExpr subj fs)
  | .functionDef _ args r b, fs => mfOptExpr r (mfStmtList b (mfArgs args fs))
  | .asyncFunctionDef _ args r b, fs => mfOptExpr r (mfStmtList b (mfArgs args fs))
  | .classDef _ bases b, fs => mfStmtList b (mfExprList bases fs)

/-- `MethodFieldVisitor.visit_Attribute`: record the attribute name when the
base is the name `self`, then descend generically. -/
def mfExpr : Expr → List String → List String
  | .name _, fs => fs
  | .constant _, fs => fs
  | .attribute v attr, fs =>
    let fs1 := match v with
      | .name id => if id = "self" then insertUniq fs attr else fs
      | _ => fs
    mfExpr v fs1
  | .call f args, fs => mfExprList args (mfExpr f fs)
  | .subscript v s, fs => mfExpr s (mfExpr v fs)
  | .boolOp _ vs, fs => mfExprList vs fs
  | .binOp l _ r, fs => mfExpr r (mfExpr l fs)
  | .unaryOp _ e, fs => mfExpr e fs
  | .compare l _ cs, fs => mfExprList cs (mfExpr l fs)
  | .ifExp t b e, fs => mfExpr e (mfExpr b (mfExpr t fs))

def mfExprList : ExprList → List String → List String
  | .nil, fs => fs
  | .cons e rest, fs => mfExprList rest (mfExpr e fs)

def mfOptExpr : OptExpr → List String → List String
  | .none, fs => fs
  | .some e, fs => mfExpr e fs

def mfStmtList : StmtList → List String → List String
  | .nil, fs => fs
  | .cons s rest, fs => mfStmtList rest (mfStmt s fs)

def mfArgs : ArgList → List String → List String
  | .nil, fs => fs
  | .cons (.mk _ a) rest, fs => mfArgs rest (mfOptExpr a fs)

def mfCases : MatchCaseList → List String → List String
  | .nil, fs => fs
  | .cons (.mk _ b) rest, fs => mfCases rest (mfStmtList b fs)

end

/-- The field set collected by running a fresh `MethodFieldVisitor` over one
method definition node. -/
def methodFieldsOf (s : Stmt) : List String := mfStmt s []

/-- The class-body loop of `LCOMVisitor.visit_ClassDef`: walk the direct body
items, appending each `FunctionDef` name to `methods` and assigning its field
set into the `method_fields` dict (a later duplicate name overwrites the
earlier entry, as in a Python dict). -/
def collectMethodsAux : StmtList → List String → List (String × List String) →
    (List String × List (String × List String))
  | .nil, ms, mf => (ms, mf)
  | .cons s rest, ms, mf =>
    match s with
    | .functionDef nm a r b =>
      collectMethodsAux rest (ms ++ [nm])
        (assocSet nm (methodFieldsOf (.functionDef nm a r b)) mf)
    | _ => collectMethodsAux rest ms mf

/-- `set.isdisjoint`. -/
def disjointL (a b : List String) : Bool :=
  a.all (fun x => decide (x ∉ b))

/-- One (i, j) step of the `calculate_lcom` pair loop: if both field sets are
non-empty, disjointness increments P and intersection increments Q; if either
is empty, P is incremented. -/
def pairPQ (f1 f2 : List String) : Nat × Nat :=
  if f1.isEmpty || f2.isEmpty then (1, 0)
  else if disjointL f1 f2 then (1, 0) else (0, 1)

/-- `method_fields[methods[i]]` (every method name is a key of the dict). -/
def fieldsLookup (mf : List (String × List String)) (nm : String) : List String :=
  (assocGet nm mf).getD []

/-- Inner pair loop: pair method `i`'s fields against each later method. -/
def pairsWith (mf : List (String × List String)) (f1 : List String) :
    List String → Nat × Nat
  | [] => (0, 0)
  | m2 :: rest =>
    let p := pairPQ f1 (fieldsLookup mf m2)
    let q := pairsWith mf f1 rest
    (p.1 + q.1, p.2 + q.2)

/-- Outer pair loop of `calculate_lcom`, producing the totals (P, Q). -/
def lcomPairs (mf : List (String × List String)) : List String → Nat × Nat
  | [] => (0, 0)
  | m :: rest =>
    let p := pairsWith mf (fieldsLookup mf m) rest
    let q := lcomPairs mf rest
    (p.1 + q.1, p.2 + q.2)

/-- `calculate_lcom`: 0 for fewer than two methods, else
`P - Q if P > Q else 0`. -/
def calculateLcom (mf : List (String × List String)) (methods : List String) : Nat :=
  if methods.length < 2 then 0
  else
    let pq := lcomPairs mf methods
    if pq.1 > pq.2 then pq.1 - pq.2 else 0

/-- `LCOMVisitor.visit_ClassDef` on a class body. -/
def lcomOfClassBody (body : StmtList) : Nat :=
  let p := collectMethodsAux body [] []
  calculateLcom p.2 p.1

mutual

/-- `LCOMVisitor` dispatch: `visit_ClassDef` scores the class and does not
recurse; every other statement is traversed generically (expressions contain
no class definitions in this fragment, so generic descent only needs to walk
statement bodies). -/
def lcomStmt : Stmt → List (String × Nat) → List (String × Nat)
  | .classDef nm _ body, d => assocSet nm (lcomOfClassBody body) d
  | .functionDef _ _ _ b, d => lcomStmtList b d
  | .asyncFunctionDef _ _ _ b, d => lcomStmtList b d
  | .ifS _ b e, d => lcomStmtList e (lcomStmtList b d)
  | .whileS _ b e, d => lcomStmtList e (lcomStmtList b d)
  | .matchS _ cs, d => lcomCases cs d
  | _, d => d

def lcomStmtList : StmtList → List (String × Nat) → List (String × Nat)
  | .nil, d => d
  | .cons s rest, d => lcomStmtList rest (lcomStmt s d)

def lcomCases : MatchCaseList → List (String × Nat) → List (String × Nat)
  | .nil, d => d
  | .cons (.mk _ b) rest, d => lcomCases rest (lcomStmtList b d)

end

/-- `analyze_lcom`: parse, run an `LCOMVisitor` over the module, return its
`class_lcoms` dict. -/
def analyzeLcom (prog : StmtList) : List (String × Nat) :=
  lcomStmtList prog []

/-- A `(self)` parameter list. -/
def selfArg : ArgList := .cons (.mk "self" .none) .nil

/-- The class
`class M: def f(self): return self.a / def g(self): return self.b /
def h(self): return 3` — exactly three methods, two accessing disjoint
non-empty field sets and one accessing no fields. -/
def c2prog : StmtList :=
  .cons (.classDef "M" .nil
    (.cons (.functionDef "f" selfArg .none
      (.cons (.ret (.some (.attribute (.name "self") "a"))) .nil))
    (.cons (.functionDef "g" selfArg .none
      (.cons (.ret (.some (.attribute (.name "self") "b"))) .nil))
    (.cons (.functionDef "h" selfArg .none
      (.cons (.ret (.some (.constant 3))) .nil))
    .nil)))) .nil

/-- Claim C2, counterexample.  For a class with exactly three directly
defined methods — two accessing the disjoint non-empty field sets `{a}` and
`{b}` and one accessing no fields — `analyze_lcom` returns 3, not the claimed
2: all three unordered pairs increment P (the disjoint pair, and both pairs
involving the field-free method) and none increments Q, so the result is
`max(P − Q, 0) = 3`. -/
theorem radon_c2_counterexample :
    analyzeLcom c2prog = [("M", 3)] ∧
    assocGet "M" (analyzeLcom c2prog) ≠ Option.some 2 :=
  ⟨rfl, by decide⟩

/-- Claim C2, amended.  For every class whose directly defined methods are
exactly three — two of them accessing disjoint non-empty instance-field sets
and one accessing no fields — `analyze_lcom` returns an LCOM of 3 for that
class (all three pairs count as non-cohesive: the disjoint pair and the two
pairs involving the field-free method). -/
theorem radon_c2_amended
    (cn : String) (bases : ExprList)
    (n1 n2 n3 : String) (a1 a2 a3 : ArgList) (r1 r2 r3 : OptExpr)
    (b1 b2 b3 : StmtList)
    (h12 : n1 ≠ n2) (h13 : n1 ≠ n3) (h23 : n2 ≠ n3)
    (hd : disjointL (methodFieldsOf (.functionDef n1 a1 r1 b1))
      (methodFieldsOf (.functionDef n2 a2 r2 b2)) = true)
    (h1 : (methodFieldsOf (.functionDef n1 a1 r1 b1)).isEmpty = false)
    (h2 : (methodFieldsOf (.functionDef n2 a2 r2 b2)).isEmpty = false)
    (h3 : (methodFieldsOf (.functionDef n3 a3 r3 b3)).isEmpty = true) :
    analyzeLcom (.cons (.classDef cn bases
      (.cons (.functionDef n1 a1 r1 b1)
      (.cons (.functionDef n2 a2 r2 b2)
      (.cons (.functionDef n3 a3 r3 b3) .nil)))) .nil) = [(cn, 3)] := by
  have hn21 : ¬ n2 = n1 := fun h => h12 h.symm
  have hn31 : ¬ n3 = n1 := fun h => h13 h.symm
  have hn32 : ¬ n3 = n2 := fun h => h23 h.symm
  have p12 : pairPQ (methodFieldsOf (.functionDef n1 a1 r1 b1))
      (methodFieldsOf (.functionDef n2 a2 r2 b2)) = (1, 0) := by
    unfold pairPQ; rw [h1, h2, hd]; simp
  have p13 : pairPQ (methodFieldsOf (.functionDef n1 a1 r1 b1))
      (methodFieldsOf (.functionDef n3 a3 r3 b3)) = (1, 0) := by
    unfold pairPQ; rw [h3]; simp
  have p23 : pairPQ (methodFieldsOf (.functionDef n2 a2 r2 b2))
      (methodFieldsOf (.functionDef n3 a3 r3 b3)) = (1, 0) := by
    unfold pairPQ; rw [h3]; simp
  have l1 : fieldsLookup
      (assocSet n3 (methodFieldsOf (.functionDef n3 a3 r3 b3))
        (assocSet n2 (methodFieldsOf (.functionDef n2 a2 r2 b2))
          (assocSet n1 (methodFieldsOf (.functionDef n1 a1 r1 b1)) [])))
      n1 = methodFieldsOf (.functionDef n1 a1 r1 b1) := by
    simp [fieldsLookup, assocGet_assocSet, hn31, hn21]
  have l2 : fieldsLookup
      (assocSet n3 (methodFieldsOf (.functionDef n3 a3 r3 b3))
        (assocSet n2 (methodFieldsOf (.functionDef n2 a2 r2 b2))
          (assocSet n1 (methodFieldsOf (.functionDef n1 a1 r1 b1)) [])))
      n2 = methodFieldsOf (.functionDef n2 a2 r2 b2) := by
    simp [fieldsLookup, assocGet_assocSet, hn32]
  have l3 : fieldsLookup
      (assocSet n3 (methodFieldsOf (.functionDef n3 a3 r3 b3))
        (assocSet n2 (methodFieldsOf (.functionDef n2 a2 r2 b2))
          (assocSet n1 (methodFieldsOf (.functionDef n1 a1 r1 b1)) [])))
      n3 = methodFieldsOf (.functionDef n3 a3 r3 b3) := by
    simp [fieldsLookup, assocGet_assocSet]
  simp only [analyzeLcom, lcomStmtList, lcomStmt, lcomOfClassBody,
    collectMethodsAux, List.nil_append, List.singleton_append,
    List.cons_append]
  simp only [calculateLcom, lcomPairs, pairsWith, l1, l2, l3, p12, p13, p23]
  norm_num [assocSet]

/-- Witness for the amended C2 on the concrete three-method class of
`c2prog` (field sets `{a}`, `{b}`, `{}`). -/
theorem radon_c2_witness :
    analyzeLcom c2prog = [("M", 3)] :=
  radon_c2_amended "M" .nil "f" "g" "h" selfArg selfArg selfArg
    .none .none .none
    (.cons (.ret (.some (.attribute (.name "self") "a"))) .nil)
    (.cons (.ret (.some (.attribute (.name "self") "b"))) .nil)
    (.cons (.ret (.some (.constant 3))) .nil)
    (by decide) (by decide) (by decide) (by decide) (by decide) (by decide)
    (by decide)

/-- Appending statement lists folds through the method-collection loop. -/
theorem collectMethodsAux_append :
    ∀ (a : StmtList) (b : StmtList) (ms : List String)
      (mf : List (String × List String)),
    collectMethodsAux (StmtList.append a b) ms mf =
      collectMethodsAux b (collectMethodsAux a ms mf).1
        (collectMethodsAux a ms mf).2
  | .nil, b, ms, mf => rfl
  | .cons s rest, b, ms, mf => by
    cases s <;>
      simp [StmtList.append, collectMethodsAux, collectMethodsAux_append rest b]

/-- Claim C10.  `LCOMVisitor` counts as methods only the synchronous
`FunctionDef` items directly in the class body: an `AsyncFunctionDef` item
contributes neither to the method list nor to the field-set dict, so
inserting an async method definition anywhere in a class body leaves the
class's LCOM score — and the `analyze_lcom` result for a module containing
that class — unchanged. -/
theorem radon_c10 (pre post : StmtList) (nm : String) (a : ArgList)
    (r : OptExpr) (b : StmtList) (cn : String) (bases : ExprList) :
    lcomOfClassBody (StmtList.append pre (.cons (.asyncFunctionDef nm a r b) post)) =
      lcomOfClassBody (StmtList.append pre post) ∧
    analyzeLcom (.cons (.classDef cn bases
        (StmtList.append pre (.cons (.asyncFunctionDef nm a r b) post))) .nil) =
      analyzeLcom (.cons (.classDef cn bases (StmtList.append pre post)) .nil) := by
  have h : lcomOfClassBody
      (StmtList.append pre (.cons (.asyncFunctionDef nm a r b) post)) =
      lcomOfClassBody (StmtList.append pre post) := by
    simp only [lcomOfClassBody, collectMethodsAux_append, collectMethodsAux]
  exact ⟨h, by simp only [analyzeLcom, lcomStmtList, lcomStmt, h]⟩

/-! ### HalsteadVisitor

Each handled node kind reports (operator count, operand count, operator
names, operand nodes) through the `dispatch` decorator, which adds the counts,
inserts the operator names into `operators_seen`, inserts
`(context, resolved operand)` into `operands_seen` and then descends
generically into the children.  An operand resolves through the `types` table
keyed by the node's class name (`Name → id`, `Attribute → attr`,
`Constant/Num → value`); an unresolvable node falls back to the node itself
as the key (Python keys such fallback nodes by object identity; the embedding
keys them by a structural encoding of the node, which no analysed property
depends on).  `visit_FunctionDef` spawns one fresh sub-visitor per body
statement with the function's name as context and folds the four accumulators
into both the parent and a per-function visitor that is then appended to
`function_visitors`; it does not descend into arguments or the return
annotation. -/

mutual

/-- Structural encoding of an expression node, standing in for Python's
object identity of unresolvable operand nodes. -/
def exprEncode : Expr → String
  | .name id => "Name(" ++ id ++ ")"
  | .constant v => "Constant(" ++ toString v ++ ")"
  | .attribute v a => "Attribute(" ++ exprEncode v ++ "," ++ a ++ ")"
  | .call f args => "Call(" ++ exprEncode f ++ "," ++ exprListEncode args ++ ")"
  | .subscript v s => "Subscript(" ++ exprEncode v ++ "," ++ exprEncode s ++ ")"
  | .boolOp op vs => "BoolOp(" ++ op ++ "," ++ exprListEncode vs ++ ")"
  | .binOp l op r =>
    "BinOp(" ++ exprEncode l ++ "," ++ op ++ "," ++ exprEncode r ++ ")"
  | .unaryOp op e => "UnaryOp(" ++ op ++ "," ++ exprEncode e ++ ")"
  | .compare l ops cs =>
    "Compare(" ++ exprEncode l ++ "," ++ String.intercalate "," ops ++ "," ++
      exprListEncode cs ++ ")"
  | .ifExp t b e =>
    "IfExp(" ++ exprEncode t ++ "," ++ exprEncode b ++ "," ++ exprEncode e ++ ")"

def exprListEncode : ExprList → String
  | .nil => ""
  | .cons e rest => exprEncode e ++ ";" ++ exprListEncode rest

end

/-- The distinguishing value of one operand in `operands_seen`: a number for
`Constant`/`Num`, the identifier for `Name`, the attribute name for
`Attribute`, the node itself otherwise. -/
inductive OperandKey where
  | num (value : Int)
  | strv (value : String)
  | node (enc : String)
deriving DecidableEq

/-- `getattr(operand, self.types.get(name, ""), operand)`. -/
def resolveOperand : Expr → OperandKey
  | .name id => .strv id
  | .attribute _ attr => .strv attr
  | .constant v => .num v
  | e => .node (exprEncode e)

/-- The per-function visitor saved in `function_visitors` (its own
`function_visitors` list is always empty and is not modelled). -/
structure FuncHalstead where
  context : String
  operators : Nat
  operands : Nat
  operatorsSeen : List String
  operandsSeen : List (Option String × OperandKey)

/-- Mutable state of a `HalsteadVisitor` (the `context` parameter is threaded
separately). -/
structure HState where
  operators : Nat
  operands : Nat
  operatorsSeen : List String
  operandsSeen : List (Option String × OperandKey)
  functionVisitors : List FuncHalstead

/-- A freshly constructed `HalsteadVisitor`. -/
def hEmpty : HState := ⟨0, 0, [], [], []⟩

/-- The `dispatch` decorator, before the generic descent: add the two counts,
update `operators_seen` with the operator names and `operands_seen` with
`(context, resolved value)` per operand. -/
def hProcess (ctx : Option String) (nOps nOpnds : Nat) (opNames : List String)
    (operands : List Expr) (st : HState) : HState :=
  { st with
    operators := st.operators + nOps,
    operands := st.operands + nOpnds,
    operatorsSeen := setUnion st.operatorsSeen opNames,
    operandsSeen := operands.foldl
      (fun acc o => insertUniq acc (ctx, resolveOperand o)) st.operandsSeen }

mutual

/-- One `HalsteadVisitor.visit` step on a statement. -/
def hStmt (ctx : Option String) : Stmt → HState → HState
  | .exprStmt e, st => hExpr ctx e st
  | .assign ts v, st => hExpr ctx v (hExprList ctx ts st)
  | .annAssign t a v, st => hOptExpr ctx v (hExpr ctx a (hExpr ctx t st))
  | .augAssign t op v, st =>
    hExpr ctx v (hExpr ctx t (hProcess ctx 1 2 [op] [t, v] st))
  | .ret v, st => hOptExpr ctx v st
  | .pass, st => st
  | .importS _, st => st
  | .importFrom _ _, st => st
  | .assertS t, st => hExpr ctx t st
  | .ifS t b e, st => hStmtList ctx e (hStmtList ctx b (hExpr ctx t st))
  | .whileS t b e, st => hStmtList ctx e (hStmtList ctx b (hExpr ctx t st))
  | .matchS subj cs, st => hCases ctx cs (hExpr ctx subj st)
  | .functionDef nm _ _ body, st =>
    let p := hFunFold nm body st ⟨nm, 0, 0, [], []⟩
    { p.1 with functionVisitors := p.1.functionVisitors ++ [p.2] }
  | .asyncFunctionDef nm _ _ body, st =>
    let p := hFunFold nm body st ⟨nm, 0, 0, [], []⟩
    { p.1 with functionVisitors := p.1.functionVisitors ++ [p.2] }
  | .classDef _ bases body, st => hStmtList ctx body (hExprList ctx bases st)

/-- The body loop of `visit_FunctionDef`: for each body statement, run a
fresh visitor with the function's name as context and fold its four
accumulators both into the parent (`p`) and into the per-function visitor
(`f`). -/
def hFunFold (nm : String) :
    StmtList → HState → FuncHalstead → (HState × FuncHalstead)
  | .nil, p, f => (p, f)
  | .cons s rest, p, f =>
    let sub := hStmt (Option.some nm) s hEmpty
    hFunFold nm rest
      { p with
        operators := p.operators + sub.operators,
        operands := p.operands + sub.operands,
        operatorsSeen := setUnion p.operatorsSeen sub.operatorsSeen,
        operandsSeen := setUnion p.operandsSeen sub.operandsSeen }
      { f with
        operators := f.operators + sub.operators,
        operands := f.operands + sub.operands,
        operatorsSeen := setUnion f.operatorsSeen sub.operatorsSeen,
        operandsSeen := setUnion f.operandsSeen sub.operandsSeen }

/-- One `HalsteadVisitor.visit` step on an expression. -/
def hExpr (ctx : Option String) : Expr → HState → HState
  | .name _, st => st
  | .constant _, st => st
  | .attribute v _, st => hExpr ctx v st
  | .call f args, st => hExprList ctx args (hExpr ctx f st)
  | .subscript v s, st => hExpr ctx s (hExpr ctx v st)
  | .boolOp op vs, st =>
    hExprList ctx vs
      (hProcess ctx 1 (ExprList.length vs) [op] (ExprList.toList vs) st)
  | .binOp l op r, st =>
    hExpr ctx r (hExpr ctx l (hProcess ctx 1 2 [op] [l, r] st))
  | .unaryOp op e, st => hExpr ctx e (hProcess ctx 1 1 [op] [e] st)
  | .compare l ops cs, st =>
    hExprList ctx cs (hExpr ctx l
      (hProcess ctx ops.length (ExprList.length cs + 1) ops
        (ExprList.toList cs ++ [l]) st))
  | .ifExp t b e, st => hExpr ctx e (hExpr ctx b (hExpr ctx t st))

def hExprList (ctx : Option String) : ExprList → HState → HState
  | .nil, st => st
  | .cons e rest, st => hExprList ctx rest (hExpr ctx e st)

def hOptExpr (ctx : Option String) : OptExpr → HState → HState
  | .none, st => st
  | .some e, st => hExpr ctx e st

def hStmtList (ctx : Option String) : StmtList → HState → HState
  | .nil, st => st
  | .cons s rest, st => hStmtList ctx rest (hStmt ctx s st)

def hCases (ctx : Option String) : MatchCaseList → HState → HState
  | .nil, st => st
  | .cons (.mk _ b) rest, st => hCases ctx rest (hStmtList ctx b st)

end

/-- Total operator count contributed by a function body's per-statement
sub-visitors. -/
def hBodyOps (nm : String) : StmtList → Nat
  | .nil => 0
  | .cons s rest => (hStmt (Option.some nm) s hEmpty).operators + hBodyOps nm rest

/-- Total operand count contributed by a function body's sub-visitors. -/
def hBodyOpnds (nm : String) : StmtList → Nat
  | .nil => 0
  | .cons s rest => (hStmt (Option.some nm) s hEmpty).operands + hBodyOpnds nm rest

/-- Union of the distinct-operator sets of a function body's sub-visitors. -/
def hBodyOpsSeen (nm : String) : StmtList → List String
  | .nil => []
  | .cons s rest =>
    setUnion (hStmt (Option.some nm) s hEmpty).operatorsSeen (hBodyOpsSeen nm rest)

/-- Union of the distinct-operand sets of a function body's sub-visitors. -/
def hBodyOpndsSeen (nm : String) : StmtList → List (Option String × OperandKey)
  | .nil => []
  | .cons s rest =>
    setUnion (hStmt (Option.some nm) s hEmpty).operandsSeen (hBodyOpndsSeen nm rest)

/-- The `visit_FunctionDef` body loop adds the same per-body aggregates to
the parent accumulators and to the per-function visitor. -/
theorem hFunFold_spec (nm : String) :
    ∀ (body : StmtList) (p : HState) (f : FuncHalstead),
    (hFunFold nm body p f).1 =
      { p with
        operators := p.operators + hBodyOps nm body,
        operands := p.operands + hBodyOpnds nm body,
        operatorsSeen := setUnion p.operatorsSeen (hBodyOpsSeen nm body),
        operandsSeen := setUnion p.operandsSeen (hBodyOpndsSeen nm body) } ∧
    (hFunFold nm body p f).2 =
      { f with
        operators := f.operators + hBodyOps nm body,
        operands := f.operands + hBodyOpnds nm body,
        operatorsSeen := setUnion f.operatorsSeen (hBodyOpsSeen nm body),
        operandsSeen := setUnion f.operandsSeen (hBodyOpndsSeen nm body) }
  | .nil, p, f => by
    constructor <;> simp [hFunFold, hBodyOps, hBodyOpnds, hBodyOpsSeen,
      hBodyOpndsSeen, setUnion_nil]
  | .cons s rest, p, f => by
    have ih := hFunFold_spec nm rest
    constructor <;>
      simp [hFunFold, hBodyOps, hBodyOpnds, hBodyOpsSeen, hBodyOpndsSeen,
        ih, setUnion_assoc, Nat.add_assoc]

/-- Claim C8.  Visiting a (sync or async) function definition folds the
operator/operand totals and the distinct operator/operand sets accumulated by
the per-statement sub-visitors both into the parent visitor and into a
dedicated per-function visitor `fv` appended to `function_visitors`, and the
two receive equal contributions: the parent's totals grow by exactly `fv`'s
totals and the parent's seen-sets become their union with `fv`'s. -/
theorem radon_c8 (ctx : Option String) (nm : String) (a : ArgList)
    (r : OptExpr) (body : StmtList) (st : HState) :
    (hStmt ctx (.functionDef nm a r body) st).operators =
      st.operators + (hFunFold nm body st ⟨nm, 0, 0, [], []⟩).2.operators ∧
    (hStmt ctx (.functionDef nm a r body) st).operands =
      st.operands + (hFunFold nm body st ⟨nm, 0, 0, [], []⟩).2.operands ∧
    (hStmt ctx (.functionDef nm a r body) st).operatorsSeen =
      setUnion st.operatorsSeen
        (hFunFold nm body st ⟨nm, 0, 0, [], []⟩).2.operatorsSeen ∧
    (hStmt ctx (.functionDef nm a r body) st).operandsSeen =
      setUnion st.operandsSeen
        (hFunFold nm body st ⟨nm, 0, 0, [], []⟩).2.operandsSeen ∧
    (hStmt ctx (.functionDef nm a r body) st).functionVisitors =
      st.functionVisitors ++ [(hFunFold nm body st ⟨nm, 0, 0, [], []⟩).2] ∧
    (hFunFold nm body st ⟨nm, 0, 0, [], []⟩).2.context = nm ∧
    hStmt ctx (.asyncFunctionDef nm a r body) st =
      hStmt ctx (.functionDef nm a r body) st := by
  obtain ⟨e1, e2⟩ := hFunFold_spec nm body st ⟨nm, 0, 0, [], []⟩
  refine ⟨?_, ?_, ?_, ?_, ?_, ?_, rfl⟩ <;>
    simp [hStmt, e1, e2, setUnion_nil, setUnion_listToSet]

/-! ### AllClassesVisitor, CBOVisitor and analyze_cbo

Phase 1 (`AllClassesVisitor`) collects every class name in the tree,
recursing into nested bodies.  Phase 2 (`CBOVisitor`) walks the tree with a
`current_class` cursor, accumulating coupling strings per class; after the
walk, `split_couplings_and_leave_only_class_names` collapses each recorded
string to its class-name component and deduplicates, and `analyze_cbo`
reports the size of each resulting set.  In this fragment class definitions
occur only in statement position, so the class-collection passes recurse
through statement bodies. -/

mutual

/-- `AllClassesVisitor`: `visit_ClassDef` appends the name and keeps
descending generically. -/
def allClassesStmt : Stmt → List String → List String
  | .classDef nm _ body, acc => allClassesList body (acc ++ [nm])
  | .functionDef _ _ _ b, acc => allClassesList b acc
  | .asyncFunctionDef _ _ _ b, acc => allClassesList b acc
  | .ifS _ b e, acc => allClassesList e (allClassesList b acc)
  | .whileS _ b e, acc => allClassesList e (allClassesList b acc)
  | .matchS _ cs, acc => allClassesCases cs acc
  | _, acc => acc

def allClassesList : StmtList → List String → List String
  | .nil, acc => acc
  | .cons s rest, acc => allClassesList rest (allClassesStmt s acc)

def allClassesCases : MatchCaseList → List String → List String
  | .nil, acc => acc
  | .cons (.mk _ b) rest, acc => allClassesCases rest (allClassesList b acc)

end

/-- `get_standard_lib_classes()`: the names in `dir(builtins)` bound to
types, with `"super"` removed (CPython's builtin exception and primitive
type names). -/
def stdLibClasses : List String := [
  "ArithmeticError", "AssertionError", "AttributeError", "BaseException",
  "BaseExceptionGroup", "BlockingIOError", "BrokenPipeError", "BufferError",
  "BytesWarning", "ChildProcessError", "ConnectionAbortedError",
  "ConnectionError", "ConnectionRefusedError", "ConnectionResetError",
  "DeprecationWarning", "EOFError", "EncodingWarning", "EnvironmentError",
  "Exception", "ExceptionGroup", "FileExistsError", "FileNotFoundError",
  "FloatingPointError", "FutureWarning", "GeneratorExit", "IOError",
  "ImportError", "ImportWarning", "IndentationError", "IndexError",
  "InterruptedError", "IsADirectoryError", "KeyError", "KeyboardInterrupt",
  "LookupError", "MemoryError", "ModuleNotFoundError", "NameError",
  "NotADirectoryError", "NotImplementedError", "OSError", "OverflowError",
  "PendingDeprecationWarning", "PermissionError", "ProcessLookupError",
  "RecursionError", "ReferenceError", "ResourceWarning", "RuntimeError",
  "RuntimeWarning", "StopAsyncIteration", "StopIteration", "SyntaxError",
  "SyntaxWarning", "SystemError", "SystemExit", "TabError", "TimeoutError",
  "TypeError", "UnboundLocalError", "UnicodeDecodeError",
  "UnicodeEncodeError", "UnicodeError", "UnicodeTranslateError",
  "UnicodeWarning", "UserWarning", "ValueError", "Warning",
  "ZeroDivisionError", "bool", "bytearray", "bytes", "classmethod",
  "complex", "dict", "enumerate", "filter", "float", "frozenset", "int",
  "list", "map", "memoryview", "object", "property", "range", "reversed",
  "set", "slice", "staticmethod", "str", "tuple", "type", "zip"]

/-- Mutable state of a `CBOVisitor`: the per-class coupling sets, the
`current_class` cursor, the known class names, the import-alias map and the
per-class `self`-attribute type table. -/
structure CBOState where
  classCouplings : List (String × List String)
  currentClass : Option String
  classes : List String
  importedNames : List (String × String)
  selfAttrs : List (String × List (String × String))

/-- `get_full_name`: names resolve through the import-alias map, subscripts
resolve to their base, attribute chains concatenate with `"."` (Python's
f-string renders an unresolvable base as the string `"None"`), calls resolve
to their callee, and every other kind yields `None`. -/
def getFullName (st : CBOState) : Expr → Option String
  | .name id => Option.some ((assocGet id st.importedNames).getD id)
  | .subscript v _ => getFullName st v
  | .attribute v attr =>
    Option.some ((match getFullName st v with
      | Option.some s => s
      | Option.none => "None") ++ "." ++ attr)
  | .call f _ => getFullName st f
  | _ => Option.none

/-- `is_class_name`: split the name on `"."`; with more than one component,
the name is class-like as soon as some non-empty component different from the
current class is a standard-library or discovered class name; otherwise (and
as the fall-through when no component matches) the whole name must be
non-empty, different from the current class and a standard-library or
discovered class name. -/
def isClassName (st : CBOState) : Option String → Bool
  | Option.none => false
  | Option.some n =>
    let parts := splitOnDot n
    (decide (parts.length > 1) &&
      parts.any (fun p =>
        (p ≠ "" : Bool) && decide (st.currentClass ≠ Option.some p) &&
          (stdLibClasses.contains p || st.classes.contains p))) ||
    ((n ≠ "" : Bool) && decide (st.currentClass ≠ Option.some n) &&
      (stdLibClasses.contains n || st.classes.contains n))

/-- `get_class_name`: with more than one dot-component, the first component
passing `is_class_name`, defaulting to the whole coupling string. -/
def getClassName (st : CBOState) (coupling : String) : String :=
  let parts := splitOnDot coupling
  if parts.length > 1 then
    ((parts.find? (fun p => isClassName st (Option.some p))).getD coupling)
  else coupling

/-- `add_coupling`: insert the string into the current class's coupling set
(the key is always present, having been initialised by `visit_ClassDef`). -/
def couplingAdd (cur cls : String) :
    List (String × List String) → List (String × List String)
  | [] => []
  | (k, v) :: rest =>
    if k = cur then (k, insertUniq v cls) :: rest
    else (k, v) :: couplingAdd cur cls rest

/-- `add_coupling` on the visitor state. -/
def addCoupling (cur cls : String) (st : CBOState) : CBOState :=
  { st with classCouplings := couplingAdd cur cls st.classCouplings }

/-- `get_assigned_class`: a constructor call, bare name or attribute chain
resolves through `get_full_name`; anything else yields `None`. -/
def getAssignedClass (st : CBOState) : Expr → Option String
  | .call f _ => getFullName st (.call f .nil)
  | .name id => getFullName st (.name id)
  | .attribute v a => getFullName st (.attribute v a)
  | _ => Option.none

/-- `is_self`: the literal name `self`. -/
def isSelf : Expr → Bool
  | .name id => id = "self"
  | _ => false

/-- `is_self_attribute`: an attribute whose base is the literal `self`. -/
def isSelfAttribute : Expr → Bool
  | .attribute v _ => isSelf v
  | _ => false

/-- `get_self_attribute_class`: look the attribute name up in the current
class's recorded `self`-attribute table. -/
def getSelfAttrClass (st : CBOState) (cur : String) : Expr → Option String
  | .attribute _ a => assocGet a ((assocGet cur st.selfAttrs).getD [])
  | _ => Option.none

/-- `visit_Import`: record `asname or name ↦ name` for every alias. -/
def cboImport : List (String × Option String) → CBOState → CBOState
  | [], st => st
  | (nm, asn) :: rest, st =>
    cboImport rest
      { st with importedNames := assocSet (asn.getD nm) nm st.importedNames }

/-- `visit_ImportFrom`: record `asname or name ↦ module.name` (just `name`
when the module is absent or empty). -/
def cboImportFrom (m : Option String) :
    List (String × Option String) → CBOState → CBOState
  | [], st => st
  | (nm, asn) :: rest, st =>
    let full := match m with
      | Option.some mod => if mod ≠ "" then mod ++ "." ++ nm else nm
      | Option.none => nm
    cboImportFrom m rest
      { st with importedNames := assocSet (asn.getD nm) full st.importedNames }

/-- The base-class loop of `visit_ClassDef`: couple to every class-like
resolved base name. -/
def cboBases (cur : String) : ExprList → CBOState → CBOState
  | .nil, st => st
  | .cons b rest, st =>
    let st1 := match getFullName st b with
      | Option.some bn =>
        if isClassName st (Option.some bn) then addCoupling cur bn st else st
      | Option.none => st
    cboBases cur rest st1

/-- The parameter-annotation loop of `visit_FunctionDef`: couple to every
class-like annotation of a positional parameter. -/
def cboArgs (cur : String) : ArgList → CBOState → CBOState
  | .nil, st => st
  | .cons (.mk _ ann) rest, st =>
    let st1 := match ann with
      | .some a =>
        match getFullName st a with
        | Option.some tn =>
          if isClassName st (Option.some tn) then addCoupling cur tn st else st
        | Option.none => st
      | .none => st
    cboArgs cur rest st1

/-- The return-annotation step of `visit_FunctionDef`. -/
def cboRet (cur : String) : OptExpr → CBOState → CBOState
  | .none, st => st
  | .some r, st =>
    match getFullName st r with
    | Option.some rt =>
      if isClassName st (Option.some rt) then addCoupling cur rt st else st
    | Option.none => st

/-- The target loop of `visit_Assign`: for every `self.attr` target whose
assigned value resolves to a class-like name, record the attribute's type and
add a coupling. -/
def cboAssignTargets (cur : String) (value : Expr) :
    ExprList → CBOState → CBOState
  | .nil, st => st
  | .cons t rest, st =>
    let st1 := match t with
      | .attribute tv attr =>
        if isSelf tv then
          match getAssignedClass st value with
          | Option.some ac =>
            if isClassName st (Option.some ac) then
              let tbl := assocSet attr ac ((assocGet cur st.selfAttrs).getD [])
              addCoupling cur ac { st with selfAttrs := assocSet cur tbl st.selfAttrs }
            else st
          | Option.none => st
        else st
      | _ => st
    cboAssignTargets cur value rest st1

/-- The handler part of `visit_AnnAssign` (run only when a current class is
set): a `self.attr` target records the resolved annotation in the attribute
table and couples when it is class-like; a bare-name target (a class-level
variable) couples when the resolved annotation is class-like. -/
def cboAnnAssignHandler (cur : String) (target : Expr) (ann : Expr)
    (st : CBOState) : CBOState :=
  match target with
  | .attribute tv attr =>
    if isSelf tv then
      match getFullName st ann with
      | Option.some ac =>
        if ac ≠ "" then
          let tbl := assocSet attr ac ((assocGet cur st.selfAttrs).getD [])
          let st1 := { st with selfAttrs := assocSet cur tbl st.selfAttrs }
          if isClassName st1 (Option.some ac) then addCoupling cur ac st1 else st1
        else st
      | Option.none => st
    else st
  | .name _ =>
    match getFullName st ann with
    | Option.some ac =>
      if ac ≠ "" && isClassName st (Option.some ac) then addCoupling cur ac st
      else st
    | Option.none => st
  | _ => st

mutual

/-- One `CBOVisitor.visit` step on a statement. -/
def cboStmt : Stmt → CBOState → CBOState
  | .exprStmt e, st => cboExpr e st
  | .assign ts v, st =>
    match st.currentClass with
    | Option.some cur =>
      let st1 := cboAssignTargets cur v ts st
      cboExpr v (cboExprList ts st1)
    | Option.none => cboExpr v (cboExprList ts st)
  | .annAssign t a v, st =>
    match st.currentClass with
    | Option.some cur =>
      let st1 := cboAnnAssignHandler cur t a st
      cboOptExpr v (cboExpr a (cboExpr t st1))
    | Option.none => st
  | .augAssign t _ v, st => cboExpr v (cboExpr t st)
  | .ret v, st => cboOptExpr v st
  | .pass, st => st
  | .importS names, st => cboImport names st
  | .importFrom m names, st => cboImportFrom m names st
  | .assertS t, st => cboExpr t st
  | .ifS t b e, st => cboStmtList e (cboStmtList b (cboExpr t st))
  | .whileS t b e, st => cboStmtList e (cboStmtList b (cboExpr t st))
  | .matchS subj cs, st => cboCases cs (cboExpr subj st)
  | .functionDef _ args r body, st =>
    let st1 := match st.currentClass with
      | Option.some cur => cboRet cur r (cboArgs cur args st)
      | Option.none => st
    cboOptExpr r (cboStmtList body (cboArgAnnots args st1))
  | .asyncFunctionDef _ args r body, st =>
    cboOptExpr r (cboStmtList body (cboArgAnnots args st))
  | .classDef nm bases body, st =>
    let st1 := { st with
      currentClass := Option.some nm,
      classCouplings := assocSet nm [] st.classCouplings,
      selfAttrs := assocSet nm [] st.selfAttrs }
    let st2 := cboBases nm bases st1
    let st3 := cboStmtList body (cboExprList bases st2)
    { st3 with currentClass := Option.none }

/-- One `CBOVisitor.visit` step on an expression. -/
def cboExpr : Expr → CBOState → CBOState
  | .name _, st => st
  | .constant _, st => st
  | .attribute v _, st =>
    match st.currentClass with
    | Option.some cur =>
      let st1 :=
        if isSelfAttribute v then
          match getSelfAttrClass st cur v with
          | Option.some ac =>
            if isClassName st (Option.some ac) then addCoupling cur ac st else st
          | Option.none => st
        else st
      cboExpr v st1
    | Option.none => cboExpr v st
  | .call f args, st =>
    match st.currentClass with
    | Option.some cur =>
      let st1 := match getFullName st f with
        | Option.some fn =>
          if isClassName st (Option.some fn) then addCoupling cur fn st else st
        | Option.none => st
      cboExprList args (cboExpr f st1)
    | Option.none => cboExprList args (cboExpr f st)
  | .subscript v s, st => cboExpr s (cboExpr v st)
  | .boolOp _ vs, st => cboExprList vs st
  | .binOp l _ r, st => cboExpr r (cboExpr l st)
  | .unaryOp _ e, st => cboExpr e st
  | .compare l _ cs, st => cboExprList cs (cboExpr l st)
  | .ifExp t b e, st => cboExpr e (cboExpr b (cboExpr t st))

def cboExprList : ExprList → CBOState → CBOState
  | .nil, st => st
  | .cons e rest, st => cboExprList rest (cboExpr e st)

def cboOptExpr : OptExpr → CBOState → CBOState
  | .none, st => st
  | .some e, st => cboExpr e st

/-- Generic descent through the argument nodes of a function definition
(their annotation expressions are child nodes and are visited). -/
def cboArgAnnots : ArgList → CBOState → CBOState
  | .nil, st => st
  | .cons (.mk _ ann) rest, st => cboArgAnnots rest (cboOptExpr ann st)

def cboStmtList : StmtList → CBOState → CBOState
  | .nil, st => st
  | .cons s rest, st => cboStmtList rest (cboStmt s st)

def cboCases : MatchCaseList → CBOState → CBOState
  | .nil, st => st
  | .cons (.mk _ b) rest, st => cboCases rest (cboStmtList b st)

end

/-- The pre-pass of `visit_Module`: add every top-level class name to the
class set and process every top-level import, before the generic visit. -/
def cboModulePre : StmtList → CBOState → CBOState
  | .nil, st => st
  | .cons s rest, st =>
    let st1 := match s with
      | .classDef nm _ _ => { st with classes := insertUniq st.classes nm }
      | .importS names => cboImport names st
      | .importFrom m names => cboImportFrom m names st
      | _ => st
    cboModulePre rest st1

/-- `CBOVisitor.visit` on a module node. -/
def cboModule (prog : StmtList) (st : CBOState) : CBOState :=
  cboStmtList prog (cboModulePre prog st)

/-- `split_couplings_and_leave_only_class_names`: collapse every recorded
coupling string to its class-name component and deduplicate into a set. -/
def splitCouplings (st : CBOState) : CBOState :=
  { st with classCouplings :=
    st.classCouplings.map (fun p => (p.1, listToSet (p.2.map (getClassName st)))) }

/-- The per-class result of `analyze_cbo`: the CBO value and the list of
distinct coupled class names. -/
structure CboRes where
  cbo : Nat
  coupled : List String
deriving DecidableEq

/-- The initial `CBOVisitor` state built from the Phase-1 class list. -/
def cboInit (allClasses : List String) : CBOState :=
  ⟨[], Option.none, allClasses, [], []⟩

/-- `analyze_cbo`: run Phase 1 over the module, run a `CBOVisitor` seeded
with the discovered classes, reduce the coupling sets, and report their
sizes. -/
def analyzeCbo (prog : StmtList) : List (String × CboRes) :=
  let st := splitCouplings (cboModule prog (cboInit (allClassesList prog [])))
  st.classCouplings.map (fun p => (p.1, ⟨p.2.length, p.2⟩))

/-! ### Claim C5 -/

/-- The program of the scenario: an empty `ClassA`, a `ClassB` with the
class-level variable `a = ClassA()`, and a `ClassC` whose `__init__` runs
`self.b = ClassB()`. -/
def c5prog : StmtList :=
  .cons (.classDef "ClassA" .nil (.cons .pass .nil))
  (.cons (.classDef "ClassB" .nil
    (.cons (.assign (.cons (.name "a") .nil) (.call (.name "ClassA") .nil)) .nil))
  (.cons (.classDef "ClassC" .nil
    (.cons (.functionDef "__init__" selfArg .none
      (.cons (.assign (.cons (.attribute (.name "self") "b") .nil)
        (.call (.name "ClassB") .nil)) .nil)) .nil))
  .nil))

/-- Claim C5.  On the program with class `A` (empty), class `B` holding a
class-level variable assigned from a constructor call to `A`, and class `C`
assigning an instance of `B` to an attribute of `self`, `analyze_cbo` yields
CBO 0 for `A`, CBO 1 for `B` (coupled to `A`) and CBO 1 for `C` (coupled
only to `B`, not transitively to `A`). -/
theorem radon_c5 :
    analyzeCbo c5prog =
      [("ClassA", ⟨0, []⟩), ("ClassB", ⟨1, ["ClassA"]⟩),
       ("ClassC", ⟨1, ["ClassB"]⟩)] := rfl

/-! ### Claim C9

After `visit_ClassDef` finishes, the cursor is reset to `None` instead of
being restored to the enclosing class.  With no cursor, none of the handlers
touch any visitor state, so everything after a nested class definition in the
enclosing body (as long as it declares no class and imports nothing, the two
handlers that work without a cursor) leaves the state exactly as it was. -/

mutual

/-- No class definition and no import anywhere in the statement. -/
def noClassImportStmt : Stmt → Bool
  | .classDef _ _ _ => false
  | .importS _ => false
  | .importFrom _ _ => false
  | .functionDef _ _ _ b => noClassImportList b
  | .asyncFunctionDef _ _ _ b => noClassImportList b
  | .ifS _ b e => noClassImportList b && noClassImportList e
  | .whileS _ b e => noClassImportList b && noClassImportList e
  | .matchS _ cs => noClassImportCases cs
  | _ => true

def noClassImportList : StmtList → Bool
  | .nil => true
  | .cons s rest => noClassImportStmt s && noClassImportList rest

def noClassImportCases : MatchCaseList → Bool
  | .nil => true
  | .cons (.mk _ b) rest => noClassImportList b && noClassImportCases rest

end

mutual

/-- With no current class, visiting an expression changes nothing. -/
theorem cboExpr_pure : ∀ (e : Expr) (st : CBOState),
    st.currentClass = Option.none → cboExpr e st = st
  | .name _, st, h => rfl
  | .constant _, st, h => rfl
  | .attribute v a, st, h => by
    simp only [cboExpr, h]; exact cboExpr_pure v st h
  | .call f args, st, h => by
    simp only [cboExpr, h]
    rw [cboExpr_pure f st h, cboExprList_pure args st h]
  | .subscript v s, st, h => by
    simp only [cboExpr]
    rw [cboExpr_pure v st h, cboExpr_pure s st h]
  | .boolOp op vs, st, h => by
    simp only [cboExpr]; exact cboExprList_pure vs st h
  | .binOp l op r, st, h => by
    simp only [cboExpr]
    rw [cboExpr_pure l st h, cboExpr_pure r st h]
  | .unaryOp op e, st, h => by
    simp only [cboExpr]; exact cboExpr_pure e st h
  | .compare l ops cs, st, h => by
    simp only [cboExpr]
    rw [cboExpr_pure l st h, cboExprList_pure cs st h]
  | .ifExp t b e, st, h => by
    simp only [cboExpr]
    rw [cboExpr_pure t st h, cboExpr_pure b st h, cboExpr_pure e st h]

theorem cboExprList_pure : ∀ (es : ExprList) (st : CBOState),
    st.currentClass = Option.none → cboExprList es st = st
  | .nil, st, h => rfl
  | .cons e rest, st, h => by
    simp only [cboExprList]
    rw [cboExpr_pure e st h, cboExprList_pure rest st h]

theorem cboOptExpr_pure : ∀ (oe : OptExpr) (st : CBOState),
    st.currentClass = Option.none → cboOptExpr oe st = st
  | .none, st, h => rfl
  | .some e, st, h => by
    simp only [cboOptExpr]; exact cboExpr_pure e st h

theorem cboArgAnnots_pure : ∀ (args : ArgList) (st : CBOState),
    st.currentClass = Option.none → cboArgAnnots args st = st
  | .nil, st, h => rfl
  | .cons (.mk nm ann) rest, st, h => by
    simp only [cboArgAnnots]
    rw [cboOptExpr_pure ann st h, cboArgAnnots_pure rest st h]

end

mutual

/-- With no current class, visiting a class-free, import-free statement
changes nothing. -/
theorem cboStmt_pure : ∀ (s : Stmt) (st : CBOState),
    st.currentClass = Option.none → noClassImportStmt s = true → cboStmt s st = st
  | .exprStmt e, st, h, hs => by
    simp only [cboStmt]; exact cboExpr_pure e st h
  | .assign ts v, st, h, hs => by
    simp only [cboStmt, h]
    rw [cboExprList_pure ts st h, cboExpr_pure v st h]
  | .annAssign t a v, st, h, hs => by simp only [cboStmt, h]
  | .augAssign t op v, st, h, hs => by
    simp only [cboStmt]
    rw [cboExpr_pure t st h, cboExpr_pure v st h]
  | .ret v, st, h, hs => by
    simp only [cboStmt]; exact cboOptExpr_pure v st h
  | .pass, st, h, hs => rfl
  | .importS ns, st, h, hs => by simp [noClassImportStmt] at hs
  | .importFrom m ns, st, h, hs => by simp [noClassImportStmt] at hs
  | .assertS t, st, h, hs => by
    simp only [cboStmt]; exact cboExpr_pure t st h
  | .ifS t b e, st, h, hs => by
    rw [noClassImportStmt, Bool.and_eq_true] at hs
    simp only [cboStmt]
    rw [cboExpr_pure t st h, cboStmtList_pure b st h hs.1,
      cboStmtList_pure e st h hs.2]
  | .whileS t b e, st, h, hs => by
    rw [noClassImportStmt, Bool.and_eq_true] at hs
    simp only [cboStmt]
    rw [cboExpr_pure t st h, cboStmtList_pure b st h hs.1,
      cboStmtList_pure e st h hs.2]
  | .matchS subj cs, st, h, hs => by
    rw [noClassImportStmt] at hs
    simp only [cboStmt]
    rw [cboExpr_pure subj st h, cboCases_pure cs st h hs]
  | .functionDef nm args r b, st, h, hs => by
    rw [noClassImportStmt] at hs
    simp only [cboStmt, h]
    rw [cboArgAnnots_pure args st h, cboStmtList_pure b st h hs,
      cboOptExpr_pure r st h]
  | .asyncFunctionDef nm args r b, st, h, hs => by
    rw [noClassImportStmt] at hs
    simp only [cboStmt]
    rw [cboArgAnnots_pure args st h, cboStmtList_pure b st h hs,
      cboOptExpr_pure r st h]
  | .classDef nm bs b, st, h, hs => by simp [noClassImportStmt] at hs

theorem cboStmtList_pure : ∀ (ss : StmtList) (st : CBOState),
    st.currentClass = Option.none → noClassImportList ss = true →
    cboStmtList ss st = st
  | .nil, st, h, hs => rfl
  | .cons s rest, st, h, hs => by
    rw [noClassImportList, Bool.and_eq_true] at hs
    simp only [cboStmtList]
    rw [cboStmt_pure s st h hs.1, cboStmtList_pure rest st h hs.2]

theorem cboCases_pure : ∀ (cs : MatchCaseList) (st : CBOState),
    st.currentClass = Option.none → noClassImportCases cs = true →
    cboCases cs st = st
  | .nil, st, h, hs => rfl
  | .cons (.mk p b) rest, st, h, hs => by
    rw [noClassImportCases, Bool.and_eq_true] at hs
    simp only [cboCases]
    rw [cboStmtList_pure b st h hs.1, cboCases_pure rest st h hs.2]

end

/-- Statement-list traversal distributes over append. -/
theorem cboStmtList_append : ∀ (a b : StmtList) (st : CBOState),
    cboStmtList (StmtList.append a b) st = cboStmtList b (cboStmtList a st)
  | .nil, b, st => rfl
  | .cons s rest, b, st => by
    simp only [StmtList.append, cboStmtList, cboStmtList_append rest b]

/-- Everything after a nested class definition (class-free and import-free)
is processed with no cursor and leaves the state untouched. -/
theorem cboStmtList_after_inner (pre post : StmtList) (innerName : String)
    (innerBases : ExprList) (innerBody : StmtList) (st : CBOState)
    (hpost : noClassImportList post = true) :
    cboStmtList
      (StmtList.append pre (.cons (.classDef innerName innerBases innerBody) post)) st =
    cboStmtList
      (StmtList.append pre (.cons (.classDef innerName innerBases innerBody) .nil)) st := by
  rw [cboStmtList_append, cboStmtList_append]
  simp only [cboStmtList]
  exact cboStmtList_pure post _ rfl hpost

/-- Claim C9.  After `CBOVisitor` finishes a class definition the cursor is
set to `None` (not restored to an enclosing class), so inside an enclosing
class's body everything that follows a nested class definition — as long as
it declares no class and imports nothing — changes no visitor state at all:
in particular, class-like references there add no coupling for the enclosing
class. -/
theorem radon_c9 (outer : String) (bases : ExprList) (pre post : StmtList)
    (innerName : String) (innerBases : ExprList) (innerBody : StmtList)
    (st : CBOState) (hpost : noClassImportList post = true) :
    (cboStmt (.classDef innerName innerBases innerBody) st).currentClass =
      Option.none ∧
    cboStmt (.classDef outer bases
        (StmtList.append pre (.cons (.classDef innerName innerBases innerBody) post))) st =
      cboStmt (.classDef outer bases
        (StmtList.append pre (.cons (.classDef innerName innerBases innerBody) .nil))) st := by
  refine ⟨rfl, ?_⟩
  simp only [cboStmt]
  rw [cboStmtList_after_inner pre post innerName innerBases innerBody _ hpost]

/-- Witness for C9: inside `class O`, after `class I: pass` the call `I()`
adds no coupling — the two bodies produce identical states. -/
theorem radon_c9_witness :
    (cboStmt (.classDef "I" .nil (.cons .pass .nil))
      (cboInit ["O", "I"])).currentClass = Option.none ∧
    cboStmt (.classDef "O" .nil
        (StmtList.append .nil (.cons (.classDef "I" .nil (.cons .pass .nil))
          (.cons (.exprStmt (.call (.name "I") .nil)) .nil))))
        (cboInit ["O", "I"]) =
      cboStmt (.classDef "O" .nil
        (StmtList.append .nil (.cons (.classDef "I" .nil (.cons .pass .nil)) .nil)))
        (cboInit ["O", "I"]) :=
  radon_c9 "O" .nil .nil (.cons (.exprStmt (.call (.name "I") .nil)) .nil)
    "I" .nil (.cons .pass .nil) (cboInit ["O", "I"]) (by decide)

/-! ### Claim C1

`is_class_name` excludes the current class's own name, so no coupling string
recorded during traversal ever equals the name of the class it is recorded
for (provided class names are dot-free, as Python identifiers are).  The
final reduction, however, runs after the walk with `current_class = None`, so
`get_class_name` no longer excludes the own name: a recorded multi-component
string such as `"A.B"` (from `A.B()` inside class `A`, class-like thanks to
component `B`) collapses to its first class-like component — `"A"` itself —
and the reduced coupling set of `A` then contains `A`'s own name. -/

/-- Every recorded coupling differs from the class it is recorded for. -/
def CouplingsOk (cc : List (String × List String)) : Prop :=
  ∀ c l, assocGet c cc = Option.some l → ∀ x ∈ l, x ≠ c

/-- The traversal invariant: couplings are self-free and the cursor (when
set) is a dot-free name. -/
def CInv (st : CBOState) : Prop :=
  CouplingsOk st.classCouplings ∧
  ∀ c, st.currentClass = Option.some c → splitOnDot c = [c]

/-- A name that passes `is_class_name` differs from the (dot-free) current
class: the multi-component branch is skipped for a dot-free name, and the
final check requires `name != current_class`. -/
theorem isClassName_ne_current (st : CBOState) (cur x : String)
    (hc : st.currentClass = Option.some cur) (hdf : splitOnDot cur = [cur])
    (h : isClassName st (Option.some x) = true) : x ≠ cur := by
  intro he
  subst he
  simp [isClassName, hdf, hc] at h

theorem assocGet_couplingAdd (cur cls c : String) :
    ∀ (l : List (String × List String)),
    assocGet c (couplingAdd cur cls l) =
      if cur = c then Option.map (fun v => insertUniq v cls) (assocGet c l)
      else assocGet c l
  | [] => by by_cases h : cur = c <;> simp [couplingAdd, assocGet, h]
  | (k, v) :: rest => by
    by_cases hk : k = cur
    · subst hk
      by_cases hkc : k = c
      · subst hkc; simp [couplingAdd, assocGet]
      · have hcc : ¬ k = c := hkc
        simp [couplingAdd, assocGet, hcc]
    · by_cases hkc : k = c
      · subst hkc
        have hcc : ¬ cur = k := fun hh => hk hh.symm
        simp [couplingAdd, assocGet, hk, hcc]
      · simp [couplingAdd, assocGet, hk, hkc, assocGet_couplingAdd cur cls c rest]

theorem couplingsOk_couplingAdd (cc : List (String × List String))
    (cur x : String) (h : CouplingsOk cc) (hx : x ≠ cur) :
    CouplingsOk (couplingAdd cur x cc) := by
  intro c l hget y hy
  rw [assocGet_couplingAdd] at hget
  by_cases hcc : cur = c
  · subst hcc
    rw [if_pos rfl] at hget
    cases hvl : assocGet cur cc with
    | none => rw [hvl] at hget; simp at hget
    | some v =>
      rw [hvl] at hget
      simp only [Option.map_some', Option.some.injEq] at hget
      subst hget
      rcases (mem_insertUniq v x y).1 hy with hyv | rfl
      · exact h cur v hvl y hyv
      · exact hx
  · rw [if_neg hcc] at hget
    exact h c l hget y hy

theorem couplingsOk_assocSet_nil (cc : List (String × List String))
    (nm : String) (h : CouplingsOk cc) : CouplingsOk (assocSet nm [] cc) := by
  intro c l hget y hy
  rw [assocGet_assocSet] at hget
  by_cases hn : nm = c
  · rw [if_pos hn] at hget
    cases hget
    simp at hy
  · rw [if_neg hn] at hget
    exact h c l hget y hy

/-- The invariant only reads the coupling map and the cursor. -/
theorem CInv_of_eq (st2 st : CBOState)
    (h1 : st2.classCouplings = st.classCouplings)
    (h2 : st2.currentClass = st.currentClass) (hinv : CInv st) : CInv st2 := by
  constructor
  · intro c l hget; rw [h1] at hget; exact hinv.1 c l hget
  · intro c hcu; rw [h2] at hcu; exact hinv.2 c hcu

theorem CInv_addCoupling (st : CBOState) (cur x : String)
    (hinv : CInv st) (hx : x ≠ cur) : CInv (addCoupling cur x st) := by
  constructor
  · exact couplingsOk_couplingAdd st.classCouplings cur x hinv.1 hx
  · intro c hcu; exact hinv.2 c hcu

/-- The guarded `add_coupling` pattern preserves the invariant. -/
theorem CInv_addIfClass (st : CBOState) (cur n : String)
    (hc : st.currentClass = Option.some cur) (hinv : CInv st) :
    CInv (if isClassName st (Option.some n) then addCoupling cur n st else st) := by
  by_cases h : isClassName st (Option.some n) = true
  · rw [if_pos h]
    exact CInv_addCoupling st cur n hinv
      (isClassName_ne_current st cur n hc (hinv.2 cur hc) h)
  · simp only [h, Bool.false_eq_true, if_false]
    exact hinv

theorem addIfClass_cursor (st : CBOState) (cur n : String) :
    (if isClassName st (Option.some n) then addCoupling cur n st else st).currentClass =
      st.currentClass := by
  split <;> rfl

theorem cboBases_inv (cur : String) : ∀ (bs : ExprList) (st : CBOState),
    st.currentClass = Option.some cur → CInv st →
    CInv (cboBases cur bs st) ∧
      (cboBases cur bs st).currentClass = Option.some cur
  | .nil, st, hc, hinv => ⟨hinv, hc⟩
  | .cons b rest, st, hc, hinv => by
    simp only [cboBases]
    cases hg : getFullName st b with
    | none => exact cboBases_inv cur rest st hc hinv
    | some bn =>
      exact cboBases_inv cur rest _
        ((addIfClass_cursor st cur bn).trans hc) (CInv_addIfClass st cur bn hc hinv)

theorem cboArgs_inv (cur : String) : ∀ (args : ArgList) (st : CBOState),
    st.currentClass = Option.some cur → CInv st →
    CInv (cboArgs cur args st) ∧
      (cboArgs cur args st).currentClass = Option.some cur
  | .nil, st, hc, hinv => ⟨hinv, hc⟩
  | .cons (.mk nm ann) rest, st, hc, hinv => by
    cases ann with
    | none =>
      simp only [cboArgs]
      exact cboArgs_inv cur rest st hc hinv
    | some a =>
      simp only [cboArgs]
      cases hg : getFullName st a with
      | none => exact cboArgs_inv cur rest st hc hinv
      | some tn =>
        exact cboArgs_inv cur rest _
          ((addIfClass_cursor st cur tn).trans hc) (CInv_addIfClass st cur tn hc hinv)

theorem cboRet_inv (cur : String) (r : OptExpr) (st : CBOState)
    (hc : st.currentClass = Option.some cur) (hinv : CInv st) :
    CInv (cboRet cur r st) ∧ (cboRet cur r st).currentClass = Option.some cur := by
  cases r with
  | none => exact ⟨hinv, hc⟩
  | some e =>
    simp only [cboRet]
    cases hg : getFullName st e with
    | none => exact ⟨hinv, hc⟩
    | some rt =>
      exact ⟨CInv_addIfClass st cur rt hc hinv,
        (addIfClass_cursor st cur rt).trans hc⟩

theorem cboAssignTargets_inv (cur : String) (v : Expr) :
    ∀ (ts : ExprList) (st : CBOState),
    st.currentClass = Option.some cur → CInv st →
    CInv (cboAssignTargets cur v ts st) ∧
      (cboAssignTargets cur v ts st).currentClass = Option.some cur
  | .nil, st, hc, hinv => ⟨hinv, hc⟩
  | .cons (.attribute tv attr) rest, st, hc, hinv => by
    simp only [cboAssignTargets]
    by_cases hsel : isSelf tv = true
    · simp only [hsel, if_true]
      cases hg : getAssignedClass st v with
      | none => exact cboAssignTargets_inv cur v rest st hc hinv
      | some ac =>
        dsimp only
        by_cases hcl : isClassName st (Option.some ac) = true
        · simp only [hcl, if_true]
          have hinv2 : CInv (addCoupling cur ac { st with selfAttrs := assocSet cur (assocSet attr ac ((assocGet cur st.selfAttrs).getD [])) st.selfAttrs }) := by
            apply CInv_addCoupling _ cur ac
            · exact CInv_of_eq _ st rfl rfl hinv
            · exact isClassName_ne_current st cur ac hc (hinv.2 cur hc) hcl
          exact cboAssignTargets_inv cur v rest _ hc hinv2
        · simp only [hcl, Bool.false_eq_true, if_false]
          exact cboAssignTargets_inv cur v rest st hc hinv
    · simp only [hsel, Bool.false_eq_true, if_false]
      exact cboAssignTargets_inv cur v rest st hc hinv
  | .cons (.name nm) rest, st, hc, hinv => by
    simp only [cboAssignTargets]
    exact cboAssignTargets_inv cur v rest st hc hinv
  | .cons (.constant n) rest, st, hc, hinv => by
    simp only [cboAssignTargets]
    exact cboAssignTargets_inv cur v rest st hc hinv
  | .cons (.call f args) rest, st, hc, hinv => by
    simp only [cboAssignTargets]
    exact cboAssignTargets_inv cur v rest st hc hinv
  | .cons (.subscript x y) rest, st, hc, hinv => by
    simp only [cboAssignTargets]
    exact cboAssignTargets_inv cur v rest st hc hinv
  | .cons (.boolOp op vs) rest, st, hc, hinv => by
    simp only [cboAssignTargets]
    exact cboAssignTargets_inv cur v rest st hc hinv
  | .cons (.binOp l op r) rest, st, hc, hinv => by
    simp only [cboAssignTargets]
    exact cboAssignTargets_inv cur v rest st hc hinv
  | .cons (.unaryOp op e) rest, st, hc, hinv => by
    simp only [cboAssignTargets]
    exact cboAssignTargets_inv cur v rest st hc hinv
  | .cons (.compare l ops cs) rest, st, hc, hinv => by
    simp only [cboAssignTargets]
    exact cboAssignTargets_inv cur v rest st hc hinv
  | .cons (.ifExp x y z) rest, st, hc, hinv => by
    simp only [cboAssignTargets]
    exact cboAssignTargets_inv cur v rest st hc hinv

theorem cboAnnAssignHandler_inv (cur : String) :
    ∀ (t : Expr) (a : Expr) (st : CBOState),
    st.currentClass = Option.some cur → CInv st →
    CInv (cboAnnAssignHandler cur t a st) ∧
      (cboAnnAssignHandler cur t a st).currentClass = Option.some cur
  | .attribute tv attr, a, st, hc, hinv => by
    simp only [cboAnnAssignHandler]
    by_cases hsel : isSelf tv = true
    · simp only [hsel, if_true]
      cases hg : getFullName st a with
      | none => exact ⟨hinv, hc⟩
      | some ac =>
        dsimp only
        by_cases hne : ac ≠ ""
        · rw [if_pos hne]
          have hinv1 : CInv { st with selfAttrs := assocSet cur (assocSet attr ac ((assocGet cur st.selfAttrs).getD [])) st.selfAttrs } :=
            CInv_of_eq _ st rfl rfl hinv
          by_cases hcl : isClassName { st with selfAttrs := assocSet cur (assocSet attr ac ((assocGet cur st.selfAttrs).getD [])) st.selfAttrs } (Option.some ac) = true
          · simp only [hcl, if_true]
            refine ⟨CInv_addCoupling _ cur ac hinv1 ?_, hc⟩
            exact isClassName_ne_current _ cur ac hc (hinv1.2 cur hc) hcl
          · simp only [hcl, Bool.false_eq_true, if_false]
            exact ⟨hinv1, hc⟩
        · rw [if_neg hne]
          exact ⟨hinv, hc⟩
    · simp only [hsel, Bool.false_eq_true, if_false]
      exact ⟨hinv, hc⟩
  | .name nm, a, st, hc, hinv => by
    simp only [cboAnnAssignHandler]
    cases hg : getFullName st a with
    | none => exact ⟨hinv, hc⟩
    | some ac =>
      by_cases hb : (ac ≠ "" && isClassName st (Option.some ac)) = true
      · simp only [hb, if_true]
        rw [Bool.and_eq_true] at hb
        refine ⟨CInv_addCoupling st cur ac hinv ?_, hc⟩
        exact isClassName_ne_current st cur ac hc (hinv.2 cur hc) hb.2
      · simp only [hb, Bool.false_eq_true, if_false]
        exact ⟨hinv, hc⟩
  | .constant n, a, st, hc, hinv => ⟨hinv, hc⟩
  | .call f args, a, st, hc, hinv => ⟨hinv, hc⟩
  | .subscript x y, a, st, hc, hinv => ⟨hinv, hc⟩
  | .boolOp op vs, a, st, hc, hinv => ⟨hinv, hc⟩
  | .binOp l op r, a, st, hc, hinv => ⟨hinv, hc⟩
  | .unaryOp op e, a, st, hc, hinv => ⟨hinv, hc⟩
  | .compare l ops cs, a, st, hc, hinv => ⟨hinv, hc⟩
  | .ifExp x y z, a, st, hc, hinv => ⟨hinv, hc⟩

theorem cboImport_state : ∀ (ns : List (String × Option String)) (st : CBOState),
    (cboImport ns st).classCouplings = st.classCouplings ∧
      (cboImport ns st).currentClass = st.currentClass
  | [], st => ⟨rfl, rfl⟩
  | (nm, asn) :: rest, st => cboImport_state rest _

theorem cboImportFrom_state (m : Option String) :
    ∀ (ns : List (String × Option String)) (st : CBOState),
    (cboImportFrom m ns st).classCouplings = st.classCouplings ∧
      (cboImportFrom m ns st).currentClass = st.currentClass
  | [], st => ⟨rfl, rfl⟩
  | (nm, asn) :: rest, st => cboImportFrom_state m rest _

mutual

/-- All class names declared anywhere in the statement are dot-free (as
Python identifiers always are). -/
def dfStmt : Stmt → Bool
  | .classDef nm _ body => decide (splitOnDot nm = [nm]) && dfList body
  | .functionDef _ _ _ b => dfList b
  | .asyncFunctionDef _ _ _ b => dfList b
  | .ifS _ b e => dfList b && dfList e
  | .whileS _ b e => dfList b && dfList e
  | .matchS _ cs => dfCases cs
  | _ => true

def dfList : StmtList → Bool
  | .nil => true
  | .cons s rest => dfStmt s && dfList rest

def dfCases : MatchCaseList → Bool
  | .nil => true
  | .cons (.mk _ b) rest => dfList b && dfCases rest

end

mutual

/-- The traversal preserves the invariant: every `add_coupling` is guarded by
`is_class_name`, which rejects the current class's own name. -/
theorem cboStmt_inv : ∀ (s : Stmt) (st : CBOState),
    CInv st → dfStmt s = true → CInv (cboStmt s st)
  | .exprStmt e, st, hinv, hs => by
    simp only [cboStmt]; exact cboExpr_inv e st hinv
  | .assign ts v, st, hinv, hs => by
    cases hc : st.currentClass with
    | none =>
      simp only [cboStmt, hc]
      exact cboExpr_inv v _ (cboExprList_inv ts st hinv)
    | some cur =>
      simp only [cboStmt, hc]
      exact cboExpr_inv v _ (cboExprList_inv ts _
        (cboAssignTargets_inv cur v ts st hc hinv).1)
  | .annAssign t a v, st, hinv, hs => by
    cases hc : st.currentClass with
    | none => simp only [cboStmt, hc]; exact hinv
    | some cur =>
      simp only [cboStmt, hc]
      exact cboOptExpr_inv v _ (cboExpr_inv a _ (cboExpr_inv t _
        (cboAnnAssignHandler_inv cur t a st hc hinv).1))
  | .augAssign t op v, st, hinv, hs => by
    simp only [cboStmt]
    exact cboExpr_inv v _ (cboExpr_inv t st hinv)
  | .ret v, st, hinv, hs => by
    simp only [cboStmt]; exact cboOptExpr_inv v st hinv
  | .pass, st, hinv, hs => hinv
  | .importS ns, st, hinv, hs => by
    simp only [cboStmt]
    exact CInv_of_eq _ st (cboImport_state ns st).1 (cboImport_state ns st).2 hinv
  | .importFrom m ns, st, hinv, hs => by
    simp only [cboStmt]
    exact CInv_of_eq _ st (cboImportFrom_state m ns st).1
      (cboImportFrom_state m ns st).2 hinv
  | .assertS t, st, hinv, hs => by
    simp only [cboStmt]; exact cboExpr_inv t st hinv
  | .ifS t b e, st, hinv, hs => by
    rw [dfStmt, Bool.and_eq_true] at hs
    simp only [cboStmt]
    exact cboStmtList_inv e _ (cboStmtList_inv b _ (cboExpr_inv t st hinv) hs.1) hs.2
  | .whileS t b e, st, hinv, hs => by
    rw [dfStmt, Bool.and_eq_true] at hs
    simp only [cboStmt]
    exact cboStmtList_inv e _ (cboStmtList_inv b _ (cboExpr_inv t st hinv) hs.1) hs.2
  | .matchS subj cs, st, hinv, hs => by
    rw [dfStmt] at hs
    simp only [cboStmt]
    exact cboCases_inv cs _ (cboExpr_inv subj st hinv) hs
  | .functionDef nm args r b, st, hinv, hs => by
    rw [dfStmt] at hs
    cases hc : st.currentClass with
    | none =>
      simp only [cboStmt, hc]
      exact cboOptExpr_inv r _ (cboStmtList_inv b _
        (cboArgAnnots_inv args st hinv) hs)
    | some cur =>
      simp only [cboStmt, hc]
      have h1 := cboArgs_inv cur args st hc hinv
      have h2 := cboRet_inv cur r _ h1.2 h1.1
      exact cboOptExpr_inv r _ (cboStmtList_inv b _
        (cboArgAnnots_inv args _ h2.1) hs)
  | .asyncFunctionDef nm args r b, st, hinv, hs => by
    rw [dfStmt] at hs
    simp only [cboStmt]
    exact cboOptExpr_inv r _ (cboStmtList_inv b _
      (cboArgAnnots_inv args st hinv) hs)
  | .classDef nm bases body, st, hinv, hs => by
    rw [dfStmt, Bool.and_eq_true] at hs
    have hnm : splitOnDot nm = [nm] := of_decide_eq_true hs.1
    simp only [cboStmt]
    have hinv1 : CInv { st with
        currentClass := Option.some nm,
        classCouplings := assocSet nm [] st.classCouplings,
        selfAttrs := assocSet nm [] st.selfAttrs } := by
      constructor
      · exact couplingsOk_assocSet_nil st.classCouplings nm hinv.1
      · intro c hcu
        cases hcu
        exact hnm
    have h2 := cboBases_inv nm bases _ rfl hinv1
    have h3 := cboExprList_inv bases _ h2.1
    have h4 := cboStmtList_inv body _ h3 hs.2
    constructor
    · exact h4.1
    · intro c hcu; cases hcu

theorem cboExpr_inv : ∀ (e : Expr) (st : CBOState), CInv st → CInv (cboExpr e st)
  | .name _, st, hinv => hinv
  | .constant _, st, hinv => hinv
  | .attribute v a, st, hinv => by
    cases hc : st.currentClass with
    | none => simp only [cboExpr, hc]; exact cboExpr_inv v st hinv
    | some cur =>
      simp only [cboExpr, hc]
      apply cboExpr_inv v
      by_cases hsa : isSelfAttribute v = true
      · simp only [hsa, if_true]
        cases hg : getSelfAttrClass st cur v with
        | none => exact hinv
        | some ac => exact CInv_addIfClass st cur ac hc hinv
      · simp only [hsa, Bool.false_eq_true, if_false]
        exact hinv
  | .call f args, st, hinv => by
    cases hc : st.currentClass with
    | none =>
      simp only [cboExpr, hc]
      exact cboExprList_inv args _ (cboExpr_inv f st hinv)
    | some cur =>
      simp only [cboExpr, hc]
      apply cboExprList_inv args
      apply cboExpr_inv f
      cases hg : getFullName st f with
      | none => exact hinv
      | some fn => exact CInv_addIfClass st cur fn hc hinv
  | .subscript v s, st, hinv => by
    simp only [cboExpr]
    exact cboExpr_inv s _ (cboExpr_inv v st hinv)
  | .boolOp op vs, st, hinv => by
    simp only [cboExpr]; exact cboExprList_inv vs st hinv
  | .binOp l op r, st, hinv => by
    simp only [cboExpr]
    exact cboExpr_inv r _ (cboExpr_inv l st hinv)
  | .unaryOp op e, st, hinv => by
    simp only [cboExpr]; exact cboExpr_inv e st hinv
  | .compare l ops cs, st, hinv => by
    simp only [cboExpr]
    exact cboExprList_inv cs _ (cboExpr_inv l st hinv)
  | .ifExp t b e, st, hinv => by
    simp only [cboExpr]
    exact cboExpr_inv e _ (cboExpr_inv b _ (cboExpr_inv t st hinv))

theorem cboExprList_inv : ∀ (es : ExprList) (st : CBOState),
    CInv st → CInv (cboExprList es st)
  | .nil, st, hinv => hinv
  | .cons e rest, st, hinv => by
    simp only [cboExprList]
    exact cboExprList_inv rest _ (cboExpr_inv e st hinv)

theorem cboOptExpr_inv : ∀ (oe : OptExpr) (st : CBOState),
    CInv st → CInv (cboOptExpr oe st)
  | .none, st, hinv => hinv
  | .some e, st, hinv => by
    simp only [cboOptExpr]; exact cboExpr_inv e st hinv

theorem cboArgAnnots_inv : ∀ (args : ArgList) (st : CBOState),
    CInv st → CInv (cboArgAnnots args st)
  | .nil, st, hinv => hinv
  | .cons (.mk nm ann) rest, st, hinv => by
    simp only [cboArgAnnots]
    exact cboArgAnnots_inv rest _ (cboOptExpr_inv ann st hinv)

theorem cboStmtList_inv : ∀ (ss : StmtList) (st : CBOState),
    CInv st → dfList ss = true → CInv (cboStmtList ss st)
  | .nil, st, hinv, hs => hinv
  | .cons s rest, st, hinv, hs => by
    rw [dfList, Bool.and_eq_true] at hs
    simp only [cboStmtList]
    exact cboStmtList_inv rest _ (cboStmt_inv s st hinv hs.1) hs.2

theorem cboCases_inv : ∀ (cs : MatchCaseList) (st : CBOState),
    CInv st → dfCases cs = true → CInv (cboCases cs st)
  | .nil, st, hinv, hs => hinv
  | .cons (.mk p b) rest, st, hinv, hs => by
    rw [dfCases, Bool.and_eq_true] at hs
    simp only [cboCases]
    exact cboCases_inv rest _ (cboStmtList_inv b st hinv hs.1) hs.2

end

theorem cboModulePre_inv : ∀ (ss : StmtList) (st : CBOState),
    CInv st → CInv (cboModulePre ss st)
  | .nil, st, hinv => hinv
  | .cons s rest, st, hinv => by
    simp only [cboModulePre]
    apply cboModulePre_inv rest
    cases s <;> dsimp only <;>
      first
        | exact hinv
        | exact CInv_of_eq _ st rfl rfl hinv
        | exact CInv_of_eq _ st (cboImport_state _ _).1 (cboImport_state _ _).2 hinv
        | exact CInv_of_eq _ st (cboImportFrom_state _ _ _).1
            (cboImportFrom_state _ _ _).2 hinv

/-- Claim C1, amended.  The self-exclusion holds for the couplings as
recorded during the traversal: for every module whose class names are
dot-free (as Python identifiers are), no coupling string recorded by
`CBOVisitor` for a class equals that class's own name.  (The final reduction
of `analyze_cbo`, run with no current class, can still collapse a recorded
multi-component coupling onto the class's own name — see the
counterexample.) -/
theorem radon_c1_amended (prog : StmtList) (hdf : dfList prog = true) :
    ∀ (c : String) (l : List String),
    assocGet c (cboModule prog (cboInit (allClassesList prog []))).classCouplings =
      Option.some l → ∀ x ∈ l, x ≠ c := by
  have h0 : CInv (cboInit (allClassesList prog [])) := by
    constructor
    · intro c l hget; simp [cboInit, assocGet] at hget
    · intro c hc; simp [cboInit] at hc
  have h1 := cboModulePre_inv prog _ h0
  have h2 := cboStmtList_inv prog _ h1 hdf
  exact fun c l hget x hx => h2.1 c l hget x hx

/-- Witness for the amended C1 on the C5 scenario program: the coupling
recorded for `ClassB` is `"ClassA"`, which differs from `"ClassB"`. -/
theorem radon_c1_witness : ("ClassA" : String) ≠ "ClassB" :=
  radon_c1_amended c5prog (by decide) "ClassB" ["ClassA"] rfl "ClassA"
    (by simp)

/-- The program `class B: pass` / `class A: def m(self): A.B()`.  Inside
class `A` the call target resolves to `"A.B"`, which is class-like (its
component `B` is a discovered class different from the current class), so
`"A.B"` is recorded for `A`. -/
def c1prog : StmtList :=
  .cons (.classDef "B" .nil (.cons .pass .nil))
  (.cons (.classDef "A" .nil
    (.cons (.functionDef "m" selfArg .none
      (.cons (.exprStmt (.call (.attribute (.name "A") "B") .nil)) .nil)) .nil))
  .nil)

/-- Claim C1, counterexample.  The final reduction runs after the traversal
with `current_class = None`, so `get_class_name` no longer excludes the own
name: the coupling `"A.B"` recorded for class `A` collapses to its first
class-like component, which is `"A"` itself.  The final per-class coupling
set of `A` produced by `analyze_cbo` is exactly `{"A"}` — it contains the
class's own name, and A's reported CBO is 1. -/
theorem radon_c1_counterexample :
    analyzeCbo c1prog = [("B", ⟨0, []⟩), ("A", ⟨1, ["A"]⟩)] ∧
    assocGet "A"
      ((splitCouplings (cboModule c1prog
        (cboInit (allClassesList c1prog [])))).classCouplings) =
      Option.some ["A"] ∧
    assocGet "A"
      ((cboModule c1prog (cboInit (allClassesList c1prog []))).classCouplings) =
      Option.some ["A.B"] :=
  ⟨rfl, rfl, rfl⟩

end Radon
